import Mathlib

/-! SpriteBatchNative: `UpdateBufferValuesFromElementInfo`

A shallow embedding of
`sources/engine/SiliconStudio.Xenko.Native/Sprite/SpriteBatchNative.c`.

* `float` arithmetic is embedded as exact arithmetic in an arbitrary linearly ordered
  field `α` (instantiated at `ℚ` for concrete evaluation); the routine proper does not model
  rounding.
* the position arithmetic of lines 29-31 and 43-49 is embedded a second time with every
  operation rounded to `float` (`roundFloat`, `positionFloat`), to show which exact
  identities of the field model the written positions do not satisfy.
* `int` values are embedded as `Int`; the one `int` addition of the routine is
  undefined when it leaves the 32-bit range, and `%` is C's truncating remainder.
* the memory the routine works on (the draw info, the vertex buffer, the index buffer)
  is explicit state; a pointer into the vertex buffer is a slot number.
* `npLolSincosf` is declared in a header that is not part of the sources, so it is a
  parameter: `npLolSincosf x` is the pair `(s, c)` stored through its two out-pointers.
-/

namespace SpriteBatchNative

/-! ## Data model -/

/-- Two-component vector (`Vector2` of `XenkoNative.h`). -/
structure Vector2 (α : Type) where
  X : α
  Y : α
deriving DecidableEq, Repr

/-- Four-component vector (`Vector4`). -/
structure Vector4 (α : Type) where
  X : α
  Y : α
  Z : α
  W : α
deriving DecidableEq, Repr

/-- Four-component colour (`Color4`). -/
structure Color4 (α : Type) where
  R : α
  G : α
  B : α
  A : α
deriving DecidableEq, Repr

/-- Axis-aligned rectangle (`RectangleF`). -/
structure RectangleF (α : Type) where
  x : α
  y : α
  width : α
  height : α
deriving DecidableEq, Repr

/-- The parameter block of one sprite (`SpriteDrawInfo`). -/
structure SpriteDrawInfo (α : Type) where
  Source : RectangleF α
  Destination : RectangleF α
  Origin : Vector2 α
  Rotation : α
  Depth : α
  SpriteEffects : Int
  ColorScale : Color4 α
  ColorAdd : Color4 α
  Swizzle : Int
  TextureSize : Vector2 α
  Orientation : Int
deriving DecidableEq, Repr

/-- One output vertex (`VertexPositionColorTextureSwizzle`). -/
structure VertexPositionColorTextureSwizzle (α : Type) where
  Position : Vector4 α
  ColorScale : Color4 α
  ColorAdd : Color4 α
  TextureCoordinate : Vector2 α
  Swizzle : Int
deriving DecidableEq, Repr

/-- The memory the routine can reach: the draw info behind `drawInfo`, the vertex
buffer `vertexPointer` points into, and the index buffer behind `indexPointer`. -/
structure Memory (α : Type) where
  drawInfo : SpriteDrawInfo α
  vertices : List (VertexPositionColorTextureSwizzle α)
  indices : List Nat
deriving DecidableEq, Repr

/-! ## Machine integers -/

/-- Smallest value of a 32-bit `int`. -/
def INT_MIN : Int := -2147483648

/-- Largest value of a 32-bit `int`. -/
def INT_MAX : Int := 2147483647

/-- The `int` addition `a + b`: undefined when the sum leaves the 32-bit range. -/
def addInt (a b : Int) : Option Int :=
  if INT_MIN ≤ a + b ∧ a + b ≤ INT_MAX then some (a + b) else none

/-! ## The routine -/

section Routine

variable {α : Type} [LinearOrderedField α]

/-- The literal `1e-6f` (lines 22, 30, 31). -/
def epsilon : α := 1 / 1000000

/-- Lines 33-39: the table `cornerOffsets`. -/
def cornerOffsets : Fin 4 → Vector2 α
  | 0 => ⟨0, 0⟩
  | 1 => ⟨1, 0⟩
  | 2 => ⟨1, 1⟩
  | 3 => ⟨0, 1⟩

/-- Lines 18-27: the vector `rotation`; `(1, 0)` unless `fabs(Rotation) > 1e-6f`, and then
`X` is the cosine and `Y` the sine stored by `npLolSincosf`. -/
def rotationBasis (npLolSincosf : α → α × α) (Rotation : α) : Vector2 α :=
  if |Rotation| > epsilon then ⟨(npLolSincosf Rotation).2, (npLolSincosf Rotation).1⟩
  else ⟨1, 0⟩

/-- Lines 29-31: the vector `origin` after the two divisions. -/
def normalizedOrigin (drawInfo : SpriteDrawInfo α) : Vector2 α :=
  ⟨drawInfo.Origin.X / max epsilon drawInfo.Source.width,
   drawInfo.Origin.Y / max epsilon drawInfo.Source.height⟩

/-- Line 55: the subscript `((j ^ SpriteEffects) + Orientation) % 4` as an index into the
four-entry table; undefined when the addition overflows or the remainder is negative. -/
def cornerIndex (SpriteEffects Orientation : Int) (j : Fin 4) : Option (Fin 4) :=
  match addInt (Int.xor (j.val : Int) SpriteEffects) Orientation with
  | none => none
  | some s =>
    if h : 0 ≤ Int.tmod s 4 ∧ Int.tmod s 4 < 4 then some ⟨(Int.tmod s 4).toNat, by omega⟩
    else none

/-- Lines 43-59: the vertex written by iteration `j` of the loop. -/
def loopBody (drawInfo : SpriteDrawInfo α) (deltaX deltaY : α) (rotation origin : Vector2 α)
    (j : Fin 4) : Option (VertexPositionColorTextureSwizzle α) :=
  let corner := cornerOffsets j
  let positionX := (corner.X - origin.X) * drawInfo.Destination.width
  let positionY := (corner.Y - origin.Y) * drawInfo.Destination.height
  match cornerIndex drawInfo.SpriteEffects drawInfo.Orientation j with
  | none => none
  | some i =>
    let corner := cornerOffsets i
    some
      { Position :=
          { X := drawInfo.Destination.x + (positionX * rotation.X) - (positionY * rotation.Y)
            Y := drawInfo.Destination.y + (positionX * rotation.Y) + (positionY * rotation.X)
            Z := drawInfo.Depth
            W := 1 }
        ColorScale := drawInfo.ColorScale
        ColorAdd := drawInfo.ColorAdd
        TextureCoordinate :=
          { X := (drawInfo.Source.x + corner.X * drawInfo.Source.width) * deltaX
            Y := (drawInfo.Source.y + corner.Y * drawInfo.Source.height) * deltaY }
        Swizzle := drawInfo.Swizzle }

/-- The store `*vertexPointer = v`: undefined outside the buffer. -/
def storeVertex (vertices : List (VertexPositionColorTextureSwizzle α)) (vertexPointer : Nat)
    (v : VertexPositionColorTextureSwizzle α) :
    Option (List (VertexPositionColorTextureSwizzle α)) :=
  if vertexPointer < vertices.length then some (vertices.set vertexPointer v) else none

/-- Lines 41-62: the loop, run over the remaining values of `j`; each iteration stores one
vertex at `vertexPointer` and advances the pointer by one slot. -/
def forLoop (body : Fin 4 → Option (VertexPositionColorTextureSwizzle α)) :
    List (Fin 4) → List (VertexPositionColorTextureSwizzle α) → Nat →
      Option (List (VertexPositionColorTextureSwizzle α))
  | [], vertices, _ => some vertices
  | j :: js, vertices, vertexPointer =>
    match body j with
    | none => none
    | some v =>
      match storeVertex vertices vertexPointer v with
      | none => none
      | some vertices' => forLoop body js vertices' (vertexPointer + 1)

/-- The vertex iteration `j` writes, as a function of the draw info alone (the values of
`deltaX`, `deltaY`, `rotation` and `origin` are those computed in lines 15-31). -/
def vertexAt (npLolSincosf : α → α × α) (drawInfo : SpriteDrawInfo α) (j : Fin 4) :
    Option (VertexPositionColorTextureSwizzle α) :=
  loopBody drawInfo (1 / drawInfo.TextureSize.X) (1 / drawInfo.TextureSize.Y)
    (rotationBasis npLolSincosf drawInfo.Rotation) (normalizedOrigin drawInfo) j

/-- Lines 13-63: `UpdateBufferValuesFromElementInfo`. `vertexPointer` is the slot of
`mem.vertices` the pointer argument designates; `indexPointer` and `vertexStartOffset` are
accepted and never read. The result is `none` when the C call has no defined behaviour. -/
def UpdateBufferValuesFromElementInfo (npLolSincosf : α → α × α) (mem : Memory α)
    (vertexPointer : Nat) (_indexPointer : Nat) (_vertexStartOffset : Int) :
    Option (Memory α) :=
  let drawInfo := mem.drawInfo
  let deltaX := 1 / drawInfo.TextureSize.X
  let deltaY := 1 / drawInfo.TextureSize.Y
  let rotation := rotationBasis npLolSincosf drawInfo.Rotation
  let origin := normalizedOrigin drawInfo
  match forLoop (loopBody drawInfo deltaX deltaY rotation origin) [0, 1, 2, 3]
      mem.vertices vertexPointer with
  | none => none
  | some vertices' => some { mem with vertices := vertices' }

/-- Every table subscript of the call is defined: for each `j` the addition of line 55 does
not overflow and the remainder is a valid index. -/
def CornersDefined (drawInfo : SpriteDrawInfo α) : Prop :=
  ∀ j : Fin 4, (cornerIndex drawInfo.SpriteEffects drawInfo.Orientation j).isSome = true

instance (drawInfo : SpriteDrawInfo α) : Decidable (CornersDefined drawInfo) := by
  unfold CornersDefined
  infer_instance

end Routine

/-! ## The position arithmetic in `float` -/

/-- The integer nearest to `x`, ties going to the even one. -/
def roundHalfEven (x : ℚ) : Int :=
  if x - ⌊x⌋ < 1 / 2 then ⌊x⌋
  else if 1 / 2 < x - ⌊x⌋ then ⌊x⌋ + 1
  else if ⌊x⌋ % 2 = 0 then ⌊x⌋ else ⌊x⌋ + 1

/-- Rounding of a real value to `float`: the nearest value with a 24-bit significand in
the binade of `x`, ties to even. Overflow and subnormal numbers are not modelled. -/
def roundFloat (x : ℚ) : ℚ :=
  if x = 0 then 0
  else roundHalfEven (x / (2 : ℚ) ^ (Int.log 2 |x| - 23)) * (2 : ℚ) ^ (Int.log 2 |x| - 23)

/-- Lines 29-31 in `float` arithmetic: the literal `1e-6f` and each division are rounded. -/
def normalizedOriginFloat (drawInfo : SpriteDrawInfo ℚ) : Vector2 ℚ :=
  ⟨roundFloat (drawInfo.Origin.X / max (roundFloat (1 / 1000000)) drawInfo.Source.width),
   roundFloat (drawInfo.Origin.Y / max (roundFloat (1 / 1000000)) drawInfo.Source.height)⟩

/-- Lines 43-49 in `float` arithmetic: `Position.X` and `Position.Y` of iteration `j`, every
subtraction, multiplication and addition rounded to `float`. -/
def positionFloat (drawInfo : SpriteDrawInfo ℚ) (rotation origin : Vector2 ℚ) (j : Fin 4) :
    Vector2 ℚ :=
  let corner : Vector2 ℚ := cornerOffsets j
  let positionX := roundFloat (roundFloat (corner.X - origin.X) * drawInfo.Destination.width)
  let positionY := roundFloat (roundFloat (corner.Y - origin.Y) * drawInfo.Destination.height)
  { X := roundFloat (roundFloat (drawInfo.Destination.x + roundFloat (positionX * rotation.X))
      - roundFloat (positionY * rotation.Y))
    Y := roundFloat (roundFloat (drawInfo.Destination.y + roundFloat (positionX * rotation.Y))
      + roundFloat (positionY * rotation.X)) }

/-! ## Concrete data for evaluation -/

/-- A colour with all components zero. -/
def black : Color4 ℚ := ⟨0, 0, 0, 0⟩

/-- A colour with all components one. -/
def white : Color4 ℚ := ⟨1, 1, 1, 1⟩

/-- A vertex with every field zero. -/
def blankVertex : VertexPositionColorTextureSwizzle ℚ :=
  ⟨⟨0, 0, 0, 0⟩, black, black, ⟨0, 0⟩, 0⟩

/-- The scenario of the specification: texture 100x100, source (0,0,50,50),
destination (10,10,20,20), no rotation, origin (0,0), no flip, orientation 0. -/
def scenarioInfo : SpriteDrawInfo ℚ :=
  { Source := ⟨0, 0, 50, 50⟩
    Destination := ⟨10, 10, 20, 20⟩
    Origin := ⟨0, 0⟩
    Rotation := 0
    Depth := 7
    SpriteEffects := 0
    ColorScale := white
    ColorAdd := black
    Swizzle := 2
    TextureSize := ⟨100, 100⟩
    Orientation := 0 }

/-- A rotated, flipped and re-oriented variant of the scenario, anchored at the centre of
the source rectangle. -/
def turnedInfo : SpriteDrawInfo ℚ :=
  { scenarioInfo with
    Origin := ⟨25, 25⟩
    Rotation := 1
    SpriteEffects := 1
    Orientation := 1 }

/-- The scenario with the largest `int` as `Orientation`. -/
def overflowInfo : SpriteDrawInfo ℚ :=
  { scenarioInfo with Orientation := 2147483647 }

/-- The scenario with `SpriteEffects = 2`. -/
def bitOneInfo : SpriteDrawInfo ℚ :=
  { scenarioInfo with SpriteEffects := 2 }

/-- The scenario with `Rotation` exactly at the threshold. -/
def thresholdInfo : SpriteDrawInfo ℚ :=
  { scenarioInfo with Rotation := 1 / 1000000 }

/-- The scenario with `Orientation = -1`. -/
def negativeInfo : SpriteDrawInfo ℚ :=
  { scenarioInfo with Orientation := -1 }

/-- The scenario anchored at the centre of the source rectangle, `Origin = (25, 25)`. -/
def centredInfo : SpriteDrawInfo ℚ :=
  { scenarioInfo with Origin := ⟨25, 25⟩ }

/-- A sprite placed like `turnedInfo` (same destination, rotation, depth and normalized
origin `(1/2, 1/2)`) that samples another texture region with other flags and colours. -/
def repaintedInfo : SpriteDrawInfo ℚ :=
  { turnedInfo with
    Source := ⟨5, 7, 100, 10⟩
    Origin := ⟨50, 5⟩
    SpriteEffects := 0
    ColorScale := black
    ColorAdd := white
    Swizzle := 1
    TextureSize := ⟨256, 128⟩
    Orientation := 2 }

/-- A sprite textured like `turnedInfo` (same source, texture size, flags) that is placed
elsewhere, unrotated, with another origin and depth. -/
def movedInfo : SpriteDrawInfo ℚ :=
  { turnedInfo with
    Destination := ⟨-3, 8, 64, 16⟩
    Origin := ⟨10, 40⟩
    Rotation := 0
    Depth := 2 }

/-- A memory holding `drawInfo`, `n` blank vertex slots and a small index buffer. -/
def memoryOf (drawInfo : SpriteDrawInfo ℚ) (n : Nat) : Memory ℚ :=
  { drawInfo := drawInfo, vertices := List.replicate n blankVertex, indices := [0, 1, 2] }

/-- A stand-in for the sine/cosine routine that returns the pair `(3/5, 4/5)`. -/
def sincosStub : ℚ → ℚ × ℚ := fun _ => (3 / 5, 4 / 5)

/-- The scenario of the specification over an arbitrary field, with a chosen `Rotation`. -/
def scenarioWith {α : Type} [LinearOrderedField α] (Rotation : α) : SpriteDrawInfo α :=
  { Source := ⟨0, 0, 50, 50⟩
    Destination := ⟨10, 10, 20, 20⟩
    Origin := ⟨0, 0⟩
    Rotation := Rotation
    Depth := 7
    SpriteEffects := 0
    ColorScale := ⟨1, 1, 1, 1⟩
    ColorAdd := ⟨0, 0, 0, 0⟩
    Swizzle := 2
    TextureSize := ⟨100, 100⟩
    Orientation := 0 }

/-- A memory holding `scenarioWith Rotation` and `n` zeroed vertex slots. -/
def memoryWith {α : Type} [LinearOrderedField α] (Rotation : α) (n : Nat) : Memory α :=
  { drawInfo := scenarioWith Rotation
    vertices := List.replicate n ⟨⟨0, 0, 0, 0⟩, ⟨0, 0, 0, 0⟩, ⟨0, 0, 0, 0⟩, ⟨0, 0⟩, 0⟩
    indices := [] }

/-! ## Lemmas on machine integers and the table subscript -/

section IntLemmas

/-- Bitwise exclusive or of two non-negative `int`s. -/
theorem xor_natCast (a b : Nat) : Int.xor (a : Int) (b : Int) = ((a ^^^ b : Nat) : Int) := rfl

/-- Moving a constant from the flags to the loop counter: `j ^ (e ^ c) = (j ^ c) ^ e`. -/
theorem xor_xor_natCast (j c : Nat) (e : Int) :
    Int.xor (j : Int) (Int.xor e (c : Int)) = Int.xor ((j ^^^ c : Nat) : Int) e := by
  cases e with
  | ofNat n =>
    show ((j ^^^ (n ^^^ c) : Nat) : Int) = ((j ^^^ c ^^^ n : Nat) : Int)
    rw [Nat.xor_comm n c, Nat.xor_assoc]
  | negSucc n =>
    show Int.negSucc (j ^^^ (n ^^^ c)) = Int.negSucc (j ^^^ c ^^^ n)
    rw [Nat.xor_comm n c, Nat.xor_assoc]

/-- The table subscript for non-negative flags, when the addition stays in range. -/
theorem cornerIndex_natCast (e o : Nat) (j : Fin 4) (h : ((j.val ^^^ e) + o : Nat) ≤ 2147483647) :
    cornerIndex (e : Int) (o : Int) j = some ⟨((j.val ^^^ e) + o) % 4, Nat.mod_lt _ (by decide)⟩ := by
  unfold cornerIndex addInt INT_MIN INT_MAX
  rw [xor_natCast]
  have h1 : (-2147483648 : Int) ≤ ((j.val ^^^ e : Nat) : Int) + (o : Int) ∧
      ((j.val ^^^ e : Nat) : Int) + (o : Int) ≤ 2147483647 := by
    constructor <;> omega
  rw [if_pos h1]
  have h2 : Int.tmod (((j.val ^^^ e : Nat) : Int) + (o : Int)) 4
      = ((((j.val ^^^ e) + o) % 4 : Nat) : Int) := by
    rw [← Nat.cast_add, Int.ofNat_tmod]
    rfl
  simp only [h2]
  have h3 : (0 : Int) ≤ ((((j.val ^^^ e) + o) % 4 : Nat) : Int) ∧
      ((((j.val ^^^ e) + o) % 4 : Nat) : Int) < 4 := by
    constructor <;> omega
  rw [dif_pos h3]
  simp only [Option.some.injEq, Fin.mk.injEq]
  exact Int.toNat_ofNat _

/-- Toggling bits of the flags moves the table subscript of `j` to that of `j ^ c`. -/
theorem cornerIndex_xor (e o : Int) (c : Nat) (j k : Fin 4) (hk : k.val = j.val ^^^ c) :
    cornerIndex (Int.xor e (c : Int)) o j = cornerIndex e o k := by
  unfold cornerIndex
  rw [xor_xor_natCast, hk]

/-- Exclusive or with a two-bit number commutes with reduction modulo four. -/
theorem xor_mod_four (j e : Nat) (hj : j < 4) : (j ^^^ e) % 4 = j ^^^ (e % 4) := by
  apply Nat.eq_of_testBit_eq
  intro i
  have h4 : (4 : Nat) = 2 ^ 2 := rfl
  rw [h4, Nat.testBit_mod_two_pow, Nat.testBit_xor, Nat.testBit_xor, Nat.testBit_mod_two_pow]
  by_cases hi : i < 2
  · simp [hi]
  · have hji : j.testBit i = false := by
      apply Nat.testBit_lt_two_pow
      calc j < 2 ^ 2 := hj
        _ ≤ 2 ^ i := Nat.pow_le_pow_right (by decide) (by omega)
    simp [hi, hji]

/-- For natural flags the subscript map `j ↦ ((j ^ e) + o) mod 4` is injective on `0..3`. -/
theorem subscript_injective (e o : Nat) (j k : Fin 4)
    (h : ((j.val ^^^ e) + o) % 4 = ((k.val ^^^ e) + o) % 4) : j = k := by
  have hj := xor_mod_four j.val e j.isLt
  have hk := xor_mod_four k.val e k.isLt
  have h1 : (j.val ^^^ e) % 4 = (k.val ^^^ e) % 4 := by omega
  rw [hj, hk] at h1
  have he : e % 4 < 4 := Nat.mod_lt _ (by decide)
  have : ∀ (a b c : Fin 4), a.val ^^^ c.val = b.val ^^^ c.val → a = b := by decide
  exact this j k ⟨e % 4, he⟩ h1

end IntLemmas

/-! ## Lemmas on the loop and the call -/

section Lemmas

variable {α : Type}

/-- A successful run of the loop keeps the length of the buffer, leaves every slot outside
the window `[vertexPointer, vertexPointer + js.length)` alone, stores the vertex of the
`n`-th iteration in slot `vertexPointer + n`, and stayed inside the buffer. -/
theorem forLoop_some (body : Fin 4 → Option (VertexPositionColorTextureSwizzle α)) :
    ∀ (js : List (Fin 4)) (vs : List (VertexPositionColorTextureSwizzle α)) (p : Nat)
      (vs' : List (VertexPositionColorTextureSwizzle α)),
      forLoop body js vs p = some vs' →
        vs'.length = vs.length ∧
        (∀ i, i < p ∨ p + js.length ≤ i → vs'[i]? = vs[i]?) ∧
        (∀ n (h : n < js.length), vs'[p + n]? = body js[n]) ∧
        (∀ n, n < js.length → p + n < vs.length) := by
  intro js
  induction js with
  | nil =>
    intro vs p vs' h
    simp only [forLoop, Option.some.injEq] at h
    subst h
    simp
  | cons j js ih =>
    intro vs p vs' h
    simp only [forLoop] at h
    cases hb : body j with
    | none => simp [hb] at h
    | some v =>
      simp only [hb, storeVertex] at h
      by_cases hp : p < vs.length
      · simp only [hp, if_true] at h
        obtain ⟨hlen, hout, hin, hcap⟩ := ih (vs.set p v) (p + 1) vs' h
        have hp' : vs'[p]? = some v := by
          rw [hout p (Or.inl (Nat.lt_succ_self p))]
          simp [hp]
        refine ⟨by simpa using hlen, ?_, ?_, ?_⟩
        · intro i hi
          have hne : p ≠ i := by
            rcases hi with hi | hi
            · omega
            · simp only [List.length_cons] at hi; omega
          rw [hout i (by simp only [List.length_cons] at hi; omega)]
          exact List.getElem?_set_ne hne
        · intro n hn
          cases n with
          | zero => simpa [hb] using hp'
          | succ n =>
            have := hin n (by simpa using hn)
            simpa [Nat.add_assoc, Nat.add_comm 1 n] using this
        · intro n hn
          cases n with
          | zero => simpa using hp
          | succ n =>
            have := hcap n (by simpa using hn)
            simp only [List.length_set] at this
            omega
      · simp [hp] at h

/-- The loop succeeds when every iteration has a defined vertex and the buffer has room. -/
theorem forLoop_defined (body : Fin 4 → Option (VertexPositionColorTextureSwizzle α)) :
    ∀ (js : List (Fin 4)) (vs : List (VertexPositionColorTextureSwizzle α)) (p : Nat),
      (∀ j ∈ js, (body j).isSome = true) → p + js.length ≤ vs.length →
        ∃ vs', forLoop body js vs p = some vs' := by
  intro js
  induction js with
  | nil => intro vs p _ _; exact ⟨vs, rfl⟩
  | cons j js ih =>
    intro vs p hbody hcap
    obtain ⟨v, hv⟩ := Option.isSome_iff_exists.mp (hbody j (List.mem_cons_self j js))
    simp only [List.length_cons] at hcap
    have hp : p < vs.length := by omega
    obtain ⟨vs', h⟩ := ih (vs.set p v) (p + 1)
      (fun i hi => hbody i (List.mem_cons_of_mem j hi)) (by simp only [List.length_set]; omega)
    exact ⟨vs', by simp [forLoop, hv, storeVertex, hp, h]⟩

end Lemmas

section UpdateLemmas

variable {α : Type} [LinearOrderedField α]

/-- The threshold `1e-6f` is positive. -/
theorem epsilon_pos : (0 : α) < epsilon := by
  unfold epsilon
  positivity

/-- At or below the threshold the rotation vector is `(1, 0)`, whatever the routine. -/
theorem rotationBasis_of_abs_le (npLolSincosf : α → α × α) (r : α) (h : |r| ≤ epsilon) :
    rotationBasis npLolSincosf r = ⟨1, 0⟩ := by
  unfold rotationBasis
  rw [if_neg (not_lt.mpr h)]

/-- Above the threshold the rotation vector is what the routine stored. -/
theorem rotationBasis_of_lt_abs (npLolSincosf : α → α × α) (r : α) (h : epsilon < |r|) :
    rotationBasis npLolSincosf r = ⟨(npLolSincosf r).2, (npLolSincosf r).1⟩ := by
  unfold rotationBasis
  rw [if_pos h]

/-- The vertex of iteration `j`, spelled out, when the table subscript is defined. -/
theorem vertexAt_of_cornerIndex (npLolSincosf : α → α × α) (drawInfo : SpriteDrawInfo α)
    (j i : Fin 4) (hi : cornerIndex drawInfo.SpriteEffects drawInfo.Orientation j = some i) :
    vertexAt npLolSincosf drawInfo j = some
      { Position :=
          { X := drawInfo.Destination.x
              + (((cornerOffsets j).X - (normalizedOrigin drawInfo).X) * drawInfo.Destination.width
                  * (rotationBasis npLolSincosf drawInfo.Rotation).X)
              - (((cornerOffsets j).Y - (normalizedOrigin drawInfo).Y) * drawInfo.Destination.height
                  * (rotationBasis npLolSincosf drawInfo.Rotation).Y)
            Y := drawInfo.Destination.y
              + (((cornerOffsets j).X - (normalizedOrigin drawInfo).X) * drawInfo.Destination.width
                  * (rotationBasis npLolSincosf drawInfo.Rotation).Y)
              + (((cornerOffsets j).Y - (normalizedOrigin drawInfo).Y) * drawInfo.Destination.height
                  * (rotationBasis npLolSincosf drawInfo.Rotation).X)
            Z := drawInfo.Depth
            W := 1 }
        ColorScale := drawInfo.ColorScale
        ColorAdd := drawInfo.ColorAdd
        TextureCoordinate :=
          { X := (drawInfo.Source.x + (cornerOffsets i).X * drawInfo.Source.width)
              * (1 / drawInfo.TextureSize.X)
            Y := (drawInfo.Source.y + (cornerOffsets i).Y * drawInfo.Source.height)
              * (1 / drawInfo.TextureSize.Y) }
        Swizzle := drawInfo.Swizzle } := by
  simp [vertexAt, loopBody, hi]

/-- The vertex of iteration `j` is defined exactly when its table subscript is. -/
theorem vertexAt_isSome (npLolSincosf : α → α × α) (drawInfo : SpriteDrawInfo α) (j : Fin 4) :
    (vertexAt npLolSincosf drawInfo j).isSome
      = (cornerIndex drawInfo.SpriteEffects drawInfo.Orientation j).isSome := by
  cases h : cornerIndex drawInfo.SpriteEffects drawInfo.Orientation j <;>
    simp [vertexAt, loopBody, h]

/-- What a successful call did to the memory. -/
theorem update_some (npLolSincosf : α → α × α) (mem mem' : Memory α)
    (vertexPointer indexPointer : Nat) (vertexStartOffset : Int)
    (h : UpdateBufferValuesFromElementInfo npLolSincosf mem vertexPointer indexPointer
      vertexStartOffset = some mem') :
    mem'.drawInfo = mem.drawInfo ∧ mem'.indices = mem.indices ∧
    mem'.vertices.length = mem.vertices.length ∧
    vertexPointer + 4 ≤ mem.vertices.length ∧
    (∀ i, i < vertexPointer ∨ vertexPointer + 4 ≤ i → mem'.vertices[i]? = mem.vertices[i]?) ∧
    (∀ j : Fin 4, mem'.vertices[vertexPointer + j.val]? = vertexAt npLolSincosf mem.drawInfo j) := by
  unfold UpdateBufferValuesFromElementInfo at h
  simp only at h
  split at h
  · exact absurd h (by simp)
  · rename_i vs hvs
    simp only [Option.some.injEq] at h
    subst h
    obtain ⟨hlen, hout, hin, hcap⟩ := forLoop_some _ _ _ _ _ hvs
    refine ⟨rfl, rfl, hlen, ?_, ?_, ?_⟩
    · have := hcap 3 (by simp)
      omega
    · intro i hi
      exact hout i (by simpa using hi)
    · intro j
      have := hin j.val (by simp)
      rw [this]
      fin_cases j <;> rfl

/-- A call succeeds when the buffer has room for four vertices at `vertexPointer` and
every table subscript is defined. -/
theorem update_defined (npLolSincosf : α → α × α) (mem : Memory α)
    (vertexPointer indexPointer : Nat) (vertexStartOffset : Int)
    (hcap : vertexPointer + 4 ≤ mem.vertices.length) (hdef : CornersDefined mem.drawInfo) :
    ∃ mem', UpdateBufferValuesFromElementInfo npLolSincosf mem vertexPointer indexPointer
      vertexStartOffset = some mem' := by
  obtain ⟨vs, hvs⟩ := forLoop_defined (vertexAt npLolSincosf mem.drawInfo) [0, 1, 2, 3]
    mem.vertices vertexPointer
    (fun j _ => by rw [vertexAt_isSome]; exact hdef j) (by simpa using hcap)
  refine ⟨{ mem with vertices := vs }, ?_⟩
  have hvs' : forLoop (loopBody mem.drawInfo (1 / mem.drawInfo.TextureSize.X)
      (1 / mem.drawInfo.TextureSize.Y) (rotationBasis npLolSincosf mem.drawInfo.Rotation)
      (normalizedOrigin mem.drawInfo)) [0, 1, 2, 3] mem.vertices vertexPointer = some vs := hvs
  simp only [UpdateBufferValuesFromElementInfo, hvs']

/-- A defined call returns, and slot `vertexPointer + j` then holds the vertex of
iteration `j`. -/
theorem update_writes (npLolSincosf : α → α × α) (mem : Memory α)
    (vertexPointer indexPointer : Nat) (vertexStartOffset : Int)
    (hcap : vertexPointer + 4 ≤ mem.vertices.length) (hdef : CornersDefined mem.drawInfo) :
    ∃ mem', UpdateBufferValuesFromElementInfo npLolSincosf mem vertexPointer indexPointer
        vertexStartOffset = some mem' ∧
      ∀ j : Fin 4, ∃ i, cornerIndex mem.drawInfo.SpriteEffects mem.drawInfo.Orientation j = some i ∧
        mem'.vertices[vertexPointer + j.val]? = vertexAt npLolSincosf mem.drawInfo j := by
  obtain ⟨mem', h⟩ := update_defined npLolSincosf mem vertexPointer indexPointer
    vertexStartOffset hcap hdef
  refine ⟨mem', h, fun j => ?_⟩
  obtain ⟨i, hi⟩ := Option.isSome_iff_exists.mp (hdef j)
  exact ⟨i, hi, (update_some _ _ _ _ _ _ h).2.2.2.2.2 j⟩

/-- A call is defined exactly when the buffer has room for four vertices at `vertexPointer`
and every table subscript is defined. -/
theorem update_isSome_iff (npLolSincosf : α → α × α) (mem : Memory α)
    (vertexPointer indexPointer : Nat) (vertexStartOffset : Int) :
    (UpdateBufferValuesFromElementInfo npLolSincosf mem vertexPointer indexPointer
        vertexStartOffset).isSome = true ↔
      vertexPointer + 4 ≤ mem.vertices.length ∧ CornersDefined mem.drawInfo := by
  constructor
  · intro h
    obtain ⟨mem', hcall⟩ := Option.isSome_iff_exists.mp h
    obtain ⟨_, _, hlen, hcap, _, hslot⟩ := update_some _ _ _ _ _ _ hcall
    refine ⟨hcap, fun j => ?_⟩
    rw [← vertexAt_isSome npLolSincosf, ← hslot j]
    have hj := j.isLt
    have hlt : vertexPointer + j.val < mem'.vertices.length := by omega
    rw [List.getElem?_eq_getElem hlt]
    rfl
  · rintro ⟨hcap, hdef⟩
    obtain ⟨mem', hcall⟩ := update_defined npLolSincosf mem vertexPointer indexPointer
      vertexStartOffset hcap hdef
    rw [hcall]
    rfl

/-- Toggling bits of `SpriteEffects` does not change whether the table subscripts are
defined. -/
theorem cornersDefined_xor {β : Type} (drawInfo : SpriteDrawInfo β) (c : Nat) (hc : c < 4) :
    CornersDefined { drawInfo with SpriteEffects := Int.xor drawInfo.SpriteEffects (c : Int) }
      ↔ CornersDefined drawInfo := by
  constructor
  · intro h k
    have hk := h ⟨k.val ^^^ c, Nat.xor_lt_two_pow (n := 2) k.isLt hc⟩
    have heq := cornerIndex_xor drawInfo.SpriteEffects drawInfo.Orientation c
      ⟨k.val ^^^ c, Nat.xor_lt_two_pow (n := 2) k.isLt hc⟩ k
      (by simp [Nat.xor_assoc])
    rw [← heq]
    exact hk
  · intro h j
    show (cornerIndex (Int.xor drawInfo.SpriteEffects (c : Int)) drawInfo.Orientation j).isSome
      = true
    rw [cornerIndex_xor _ _ c j ⟨j.val ^^^ c, Nat.xor_lt_two_pow (n := 2) j.isLt hc⟩ rfl]
    exact h _

/-- Toggling bits of `SpriteEffects` does not change whether the call is defined. -/
theorem update_xor_flags_isSome (npLolSincosf : α → α × α) (mem : Memory α)
    (vertexPointer indexPointer : Nat) (vertexStartOffset : Int) (c : Nat) (hc : c < 4) :
    (UpdateBufferValuesFromElementInfo npLolSincosf
        { mem with drawInfo :=
            { mem.drawInfo with SpriteEffects := Int.xor mem.drawInfo.SpriteEffects (c : Int) } }
        vertexPointer indexPointer vertexStartOffset).isSome
      = (UpdateBufferValuesFromElementInfo npLolSincosf mem vertexPointer indexPointer
        vertexStartOffset).isSome := by
  rw [Bool.eq_iff_iff, update_isSome_iff, update_isSome_iff]
  exact and_congr Iff.rfl (cornersDefined_xor mem.drawInfo c hc)

/-- Toggling bits of `SpriteEffects`: a defined call stays defined, vertex `j` receives the texture
coordinate vertex `j ^ c` received before, and keeps its position. -/
theorem update_xor_flags (npLolSincosf : α → α × α) (mem : Memory α)
    (vertexPointer indexPointer : Nat) (vertexStartOffset : Int) (c : Nat) (hc : c < 4)
    (hcap : vertexPointer + 4 ≤ mem.vertices.length) (hdef : CornersDefined mem.drawInfo) :
    ∃ memA memB,
      UpdateBufferValuesFromElementInfo npLolSincosf mem vertexPointer indexPointer
        vertexStartOffset = some memA ∧
      UpdateBufferValuesFromElementInfo npLolSincosf
        { mem with drawInfo :=
            { mem.drawInfo with SpriteEffects := Int.xor mem.drawInfo.SpriteEffects (c : Int) } }
        vertexPointer indexPointer vertexStartOffset = some memB ∧
      ∀ j k : Fin 4, k.val = j.val ^^^ c →
        ∃ vB wA vA, memB.vertices[vertexPointer + j.val]? = some vB ∧
          memA.vertices[vertexPointer + k.val]? = some wA ∧
          memA.vertices[vertexPointer + j.val]? = some vA ∧
          vB.TextureCoordinate = wA.TextureCoordinate ∧ vB.Position = vA.Position := by
  have hdef' : CornersDefined
      { mem.drawInfo with SpriteEffects := Int.xor mem.drawInfo.SpriteEffects (c : Int) } := by
    intro j
    show (cornerIndex (Int.xor mem.drawInfo.SpriteEffects (c : Int)) mem.drawInfo.Orientation j).isSome
      = true
    rw [cornerIndex_xor _ _ c j ⟨j.val ^^^ c, Nat.xor_lt_two_pow (n := 2) j.isLt hc⟩ rfl]
    exact hdef _
  obtain ⟨memA, hA, hwA⟩ := update_writes npLolSincosf mem vertexPointer indexPointer
    vertexStartOffset hcap hdef
  obtain ⟨memB, hB, hwB⟩ := update_writes npLolSincosf
    { mem with drawInfo :=
        { mem.drawInfo with SpriteEffects := Int.xor mem.drawInfo.SpriteEffects (c : Int) } }
    vertexPointer indexPointer vertexStartOffset hcap hdef'
  refine ⟨memA, memB, hA, hB, ?_⟩
  intro j k hk
  obtain ⟨ik, hik, hsk⟩ := hwA k
  obtain ⟨ij, hij, hsj⟩ := hwA j
  obtain ⟨ib, hib, hsb⟩ := hwB j
  have hib' : cornerIndex (Int.xor mem.drawInfo.SpriteEffects (c : Int)) mem.drawInfo.Orientation j
      = some ik := by
    rw [cornerIndex_xor _ _ c j k hk]
    exact hik
  rw [vertexAt_of_cornerIndex npLolSincosf mem.drawInfo k ik hik] at hsk
  rw [vertexAt_of_cornerIndex npLolSincosf mem.drawInfo j ij hij] at hsj
  rw [vertexAt_of_cornerIndex npLolSincosf _ j ik hib'] at hsb
  exact ⟨_, _, _, hsb, hsk, hsj, rfl, rfl⟩

/-- A defined call returns, every iteration `j` has a table subscript `f j`, and slot
`vertexPointer + j` then holds the vertex of lines 43-59 computed with that subscript. -/
theorem update_writes_explicit (npLolSincosf : α → α × α) (mem : Memory α)
    (vertexPointer indexPointer : Nat) (vertexStartOffset : Int)
    (hcap : vertexPointer + 4 ≤ mem.vertices.length) (hdef : CornersDefined mem.drawInfo) :
    ∃ (mem' : Memory α) (f : Fin 4 → Fin 4),
      UpdateBufferValuesFromElementInfo npLolSincosf mem vertexPointer indexPointer
        vertexStartOffset = some mem' ∧
      (∀ j, cornerIndex mem.drawInfo.SpriteEffects mem.drawInfo.Orientation j = some (f j)) ∧
      ∀ j : Fin 4, mem'.vertices[vertexPointer + j.val]? = some
        { Position :=
            { X := mem.drawInfo.Destination.x
                + (((cornerOffsets j).X - (normalizedOrigin mem.drawInfo).X)
                    * mem.drawInfo.Destination.width
                    * (rotationBasis npLolSincosf mem.drawInfo.Rotation).X)
                - (((cornerOffsets j).Y - (normalizedOrigin mem.drawInfo).Y)
                    * mem.drawInfo.Destination.height
                    * (rotationBasis npLolSincosf mem.drawInfo.Rotation).Y)
              Y := mem.drawInfo.Destination.y
                + (((cornerOffsets j).X - (normalizedOrigin mem.drawInfo).X)
                    * mem.drawInfo.Destination.width
                    * (rotationBasis npLolSincosf mem.drawInfo.Rotation).Y)
                + (((cornerOffsets j).Y - (normalizedOrigin mem.drawInfo).Y)
                    * mem.drawInfo.Destination.height
                    * (rotationBasis npLolSincosf mem.drawInfo.Rotation).X)
              Z := mem.drawInfo.Depth
              W := 1 }
          ColorScale := mem.drawInfo.ColorScale
          ColorAdd := mem.drawInfo.ColorAdd
          TextureCoordinate :=
            { X := (mem.drawInfo.Source.x + (cornerOffsets (f j)).X * mem.drawInfo.Source.width)
                * (1 / mem.drawInfo.TextureSize.X)
              Y := (mem.drawInfo.Source.y + (cornerOffsets (f j)).Y * mem.drawInfo.Source.height)
                * (1 / mem.drawInfo.TextureSize.Y) }
          Swizzle := mem.drawInfo.Swizzle } := by
  obtain ⟨mem', hcall, hw⟩ := update_writes npLolSincosf mem vertexPointer indexPointer
    vertexStartOffset hcap hdef
  choose f hf hs using hw
  refine ⟨mem', f, hcall, hf, fun j => ?_⟩
  rw [hs j, vertexAt_of_cornerIndex npLolSincosf mem.drawInfo j (f j) (hf j)]

/-- Every entry of the corner table has coordinates in `{0, 1}`. -/
theorem cornerOffsets_zero_or_one (i : Fin 4) :
    ((cornerOffsets i : Vector2 α).X = 0 ∨ (cornerOffsets i : Vector2 α).X = 1) ∧
    ((cornerOffsets i : Vector2 α).Y = 0 ∨ (cornerOffsets i : Vector2 α).Y = 1) := by
  fin_cases i <;> simp [cornerOffsets]

/-- A point `a + c * b` of the segment `[a, a + b]` inside `[0, t]`, scaled by `1 / t`,
lies in `[0, 1]`. -/
theorem scaled_mem_unit (a b t c : α) (ha : 0 ≤ a) (hb : 0 ≤ b) (hab : a + b ≤ t)
    (ht : 0 < t) (hc : c = 0 ∨ c = 1) :
    0 ≤ (a + c * b) * (1 / t) ∧ (a + c * b) * (1 / t) ≤ 1 := by
  have h0 : 0 ≤ a + c * b := by
    rcases hc with rfl | rfl
    · simpa using ha
    · simpa using add_nonneg ha hb
  have h1 : a + c * b ≤ t := by
    rcases hc with rfl | rfl
    · simp only [zero_mul, add_zero]; linarith
    · simpa using hab
  constructor
  · exact mul_nonneg h0 (one_div_nonneg.mpr ht.le)
  · rw [mul_one_div, div_le_one ht]
    exact h1

/-- Error of a rotation whose sine is within `δ` of 0 and whose cosine is within `δ` of 1. -/
theorem rotation_error_bound (a b c s δ : α) (hs : |s| ≤ δ) (hc : |c - 1| ≤ δ) :
    |a * (c - 1) - b * s| ≤ δ * (|a| + |b|) ∧ |a * s + b * (c - 1)| ≤ δ * (|a| + |b|) := by
  have ha := abs_nonneg a
  have hb := abs_nonneg b
  constructor
  · calc |a * (c - 1) - b * s| ≤ |a * (c - 1)| + |b * s| := abs_sub _ _
      _ = |a| * |c - 1| + |b| * |s| := by rw [abs_mul, abs_mul]
      _ ≤ |a| * δ + |b| * δ :=
        add_le_add (mul_le_mul_of_nonneg_left hc ha) (mul_le_mul_of_nonneg_left hs hb)
      _ = δ * (|a| + |b|) := by ring
  · calc |a * s + b * (c - 1)| ≤ |a * s| + |b * (c - 1)| := abs_add _ _
      _ = |a| * |s| + |b| * |c - 1| := by rw [abs_mul, abs_mul]
      _ ≤ |a| * δ + |b| * δ :=
        add_le_add (mul_le_mul_of_nonneg_left hs ha) (mul_le_mul_of_nonneg_left hc hb)
      _ = δ * (|a| + |b|) := by ring

end UpdateLemmas

/-! ## Lemmas on the `float` arithmetic -/

section FloatLemmas

/-- A rational within one half of an integer rounds to it. -/
theorem roundHalfEven_eq (x : ℚ) (n : Int) (h : |x - n| < 1 / 2) : roundHalfEven x = n := by
  rw [abs_lt] at h
  obtain ⟨h1, h2⟩ := h
  unfold roundHalfEven
  by_cases hx : (n : ℚ) ≤ x
  · have hf : ⌊x⌋ = n := Int.floor_eq_iff.mpr ⟨hx, by linarith⟩
    rw [hf, if_pos (by linarith)]
  · have hx' : x < n := lt_of_not_le hx
    have hf : ⌊x⌋ = n - 1 := Int.floor_eq_iff.mpr ⟨by push_cast; linarith, by push_cast; linarith⟩
    rw [hf, if_neg (by push_cast; linarith), if_pos (by push_cast; linarith)]
    ring

/-- The `float` nearest to `x`: for `x` in the binade `[2^e, 2^(e+1))` and an integer `n`
within one half of `x / 2^(e-23)`, the rounding of `x` is `n * 2^(e-23)`. -/
theorem roundFloat_eq (x : ℚ) (e n : Int) (h1 : (2 : ℚ) ^ e ≤ |x|) (h2 : |x| < (2 : ℚ) ^ (e + 1))
    (h3 : |x / (2 : ℚ) ^ (e - 23) - n| < 1 / 2) : roundFloat x = n * (2 : ℚ) ^ (e - 23) := by
  have hpos : (0 : ℚ) < |x| := lt_of_lt_of_le (zpow_pos (by norm_num) e) h1
  have hx : x ≠ 0 := abs_pos.mp hpos
  have hlog : Int.log 2 |x| = e := by
    have ha : e ≤ Int.log 2 |x| := (Int.zpow_le_iff_le_log (by norm_num) hpos).mp (by exact_mod_cast h1)
    have hb : Int.log 2 |x| < e + 1 := (Int.lt_zpow_iff_log_lt (by norm_num) hpos).mp (by exact_mod_cast h2)
    omega
  unfold roundFloat
  rw [if_neg hx, hlog, roundHalfEven_eq _ n h3]


/-- Form of `roundFloat_eq` used to evaluate a rounding at a literal. -/
theorem roundFloat_eval (x y : ℚ) (e n : Int) (h1 : (2 : ℚ) ^ e ≤ |x|)
    (h2 : |x| < (2 : ℚ) ^ (e + 1)) (h3 : |x / (2 : ℚ) ^ (e - 23) - n| < 1 / 2)
    (hy : (n : ℚ) * (2 : ℚ) ^ (e - 23) = y) : roundFloat x = y :=
  (roundFloat_eq x e n h1 h2 h3).trans hy

/-- Zero is a `float`. -/
theorem roundFloat_zero : roundFloat 0 = 0 := by
  unfold roundFloat
  rw [if_pos rfl]

/-- The `float` evaluation of lines 29-31 and 43-49 on `movedInfo` (unrotated, so the
rotation vector is `(1, 0)`): the normalized origin is `(0.2f, 0.8f)` and the four positions
are those listed. -/
theorem float_movedInfo :
    normalizedOriginFloat movedInfo = ⟨13421773 / 67108864, 13421773 / 16777216⟩ ∧
    rotationBasis sincosStub movedInfo.Rotation = ⟨1, 0⟩ ∧
    positionFloat movedInfo ⟨1, 0⟩ ⟨13421773 / 67108864, 13421773 / 16777216⟩ 0
      = ⟨-(16567501 / 1048576), -(5033165 / 1048576)⟩ ∧
    positionFloat movedInfo ⟨1, 0⟩ ⟨13421773 / 67108864, 13421773 / 16777216⟩ 1
      = ⟨12635341 / 262144, -(5033165 / 1048576)⟩ ∧
    positionFloat movedInfo ⟨1, 0⟩ ⟨13421773 / 67108864, 13421773 / 16777216⟩ 2
      = ⟨12635341 / 262144, 11744051 / 1048576⟩ ∧
    positionFloat movedInfo ⟨1, 0⟩ ⟨13421773 / 67108864, 13421773 / 16777216⟩ 3
      = ⟨-(16567501 / 1048576), 11744051 / 1048576⟩ := by
  have r0 : roundFloat (1 / 1000000) = 8796093 / 8796093022208 :=
    roundFloat_eval _ _ (-20) (8796093) (by norm_num [le_abs]) (by norm_num [abs_lt])
      (by norm_num [abs_lt]) (by norm_num)
  have r1 : roundFloat (1 / 5) = 13421773 / 67108864 :=
    roundFloat_eval _ _ (-3) (13421773) (by norm_num [le_abs]) (by norm_num [abs_lt])
      (by norm_num [abs_lt]) (by norm_num)
  have r2 : roundFloat (4 / 5) = 13421773 / 16777216 :=
    roundFloat_eval _ _ (-1) (13421773) (by norm_num [le_abs]) (by norm_num [abs_lt])
      (by norm_num [abs_lt]) (by norm_num)
  have r3 : roundFloat (-(13421773 / 67108864)) = -(13421773 / 67108864) :=
    roundFloat_eval _ _ (-3) (-13421773) (by norm_num [le_abs]) (by norm_num [abs_lt])
      (by norm_num [abs_lt]) (by norm_num)
  have r4 : roundFloat (-(13421773 / 1048576)) = -(13421773 / 1048576) :=
    roundFloat_eval _ _ (3) (-13421773) (by norm_num [le_abs]) (by norm_num [abs_lt])
      (by norm_num [abs_lt]) (by norm_num)
  have r5 : roundFloat (-(13421773 / 16777216)) = -(13421773 / 16777216) :=
    roundFloat_eval _ _ (-1) (-13421773) (by norm_num [le_abs]) (by norm_num [abs_lt])
      (by norm_num [abs_lt]) (by norm_num)
  have r6 : roundFloat (-(16567501 / 1048576)) = -(16567501 / 1048576) :=
    roundFloat_eval _ _ (3) (-16567501) (by norm_num [le_abs]) (by norm_num [abs_lt])
      (by norm_num [abs_lt]) (by norm_num)
  have r7 : roundFloat (8) = 8 :=
    roundFloat_eval _ _ (3) (8388608) (by norm_num [le_abs]) (by norm_num [abs_lt])
      (by norm_num [abs_lt]) (by norm_num)
  have r8 : roundFloat (-(5033165 / 1048576)) = -(5033165 / 1048576) :=
    roundFloat_eval _ _ (2) (-10066330) (by norm_num [le_abs]) (by norm_num [abs_lt])
      (by norm_num [abs_lt]) (by norm_num)
  have r9 : roundFloat (53687091 / 67108864) = 13421773 / 16777216 :=
    roundFloat_eval _ _ (-1) (13421773) (by norm_num [le_abs]) (by norm_num [abs_lt])
      (by norm_num [abs_lt]) (by norm_num)
  have r10 : roundFloat (13421773 / 262144) = 13421773 / 262144 :=
    roundFloat_eval _ _ (5) (13421773) (by norm_num [le_abs]) (by norm_num [abs_lt])
      (by norm_num [abs_lt]) (by norm_num)
  have r11 : roundFloat (12635341 / 262144) = 12635341 / 262144 :=
    roundFloat_eval _ _ (5) (12635341) (by norm_num [le_abs]) (by norm_num [abs_lt])
      (by norm_num [abs_lt]) (by norm_num)
  have r12 : roundFloat (3355443 / 16777216) = 3355443 / 16777216 :=
    roundFloat_eval _ _ (-3) (13421772) (by norm_num [le_abs]) (by norm_num [abs_lt])
      (by norm_num [abs_lt]) (by norm_num)
  have r13 : roundFloat (3355443 / 1048576) = 3355443 / 1048576 :=
    roundFloat_eval _ _ (1) (13421772) (by norm_num [le_abs]) (by norm_num [abs_lt])
      (by norm_num [abs_lt]) (by norm_num)
  have r14 : roundFloat (11744051 / 1048576) = 11744051 / 1048576 :=
    roundFloat_eval _ _ (3) (11744051) (by norm_num [le_abs]) (by norm_num [abs_lt])
      (by norm_num [abs_lt]) (by norm_num)
  have hb : rotationBasis sincosStub movedInfo.Rotation = ⟨1, 0⟩ :=
    rotationBasis_of_abs_le _ _ (by
      show |(0 : ℚ)| ≤ epsilon
      rw [abs_zero]; exact epsilon_pos.le)
  refine ⟨?_, hb, ?_, ?_, ?_, ?_⟩
  · norm_num [normalizedOriginFloat, movedInfo, turnedInfo, scenarioInfo, r0, r1, r2, r3, r4, r5, r6, r7, r8, r9, r10, r11, r12, r13, r14]
  · norm_num [positionFloat, cornerOffsets, movedInfo, turnedInfo, scenarioInfo,
      roundFloat_zero, r0, r1, r2, r3, r4, r5, r6, r7, r8, r9, r10, r11, r12, r13, r14]
  · norm_num [positionFloat, cornerOffsets, movedInfo, turnedInfo, scenarioInfo,
      roundFloat_zero, r0, r1, r2, r3, r4, r5, r6, r7, r8, r9, r10, r11, r12, r13, r14]
  · norm_num [positionFloat, cornerOffsets, movedInfo, turnedInfo, scenarioInfo,
      roundFloat_zero, r0, r1, r2, r3, r4, r5, r6, r7, r8, r9, r10, r11, r12, r13, r14]
  · norm_num [positionFloat, cornerOffsets, movedInfo, turnedInfo, scenarioInfo,
      roundFloat_zero, r0, r1, r2, r3, r4, r5, r6, r7, r8, r9, r10, r11, r12, r13, r14]

end FloatLemmas

/-! ## The claims -/

section Claims

variable {α : Type} [LinearOrderedField α]

/-- C1. With `Rotation = 0`, a defined call writes into slot `vertexPointer + j`, for the
corners `(0,0), (1,0), (1,1), (0,1)` in this order, the position
`X = Destination.x + (corner.X - origin.X) * Destination.width`,
`Y = Destination.y + (corner.Y - origin.Y) * Destination.height`, where `origin` is
`Origin` divided componentwise by `max(1e-6, Source.width)` and `max(1e-6, Source.height)`;
with `Origin = (0,0)` these are the four corners of the destination rectangle. -/
theorem unrotated_positions (npLolSincosf : α → α × α) (mem : Memory α)
    (vertexPointer indexPointer : Nat) (vertexStartOffset : Int)
    (hrot : mem.drawInfo.Rotation = 0)
    (hcap : vertexPointer + 4 ≤ mem.vertices.length)
    (hdef : CornersDefined mem.drawInfo) :
    ∃ mem', UpdateBufferValuesFromElementInfo npLolSincosf mem vertexPointer indexPointer
        vertexStartOffset = some mem' ∧
      ∀ (j : Nat) (cx cy : α), (j, cx, cy) ∈ [(0, 0, 0), (1, 1, 0), (2, 1, 1), (3, 0, 1)] →
        ∃ v, mem'.vertices[vertexPointer + j]? = some v ∧
          v.Position.X = mem.drawInfo.Destination.x
            + (cx - mem.drawInfo.Origin.X / max (1 / 1000000) mem.drawInfo.Source.width)
              * mem.drawInfo.Destination.width ∧
          v.Position.Y = mem.drawInfo.Destination.y
            + (cy - mem.drawInfo.Origin.Y / max (1 / 1000000) mem.drawInfo.Source.height)
              * mem.drawInfo.Destination.height ∧
          (mem.drawInfo.Origin = ⟨0, 0⟩ →
            v.Position.X = mem.drawInfo.Destination.x + cx * mem.drawInfo.Destination.width ∧
            v.Position.Y = mem.drawInfo.Destination.y + cy * mem.drawInfo.Destination.height) := by
  obtain ⟨mem', hcall, hw⟩ := update_writes npLolSincosf mem vertexPointer indexPointer
    vertexStartOffset hcap hdef
  have hbasis : rotationBasis npLolSincosf mem.drawInfo.Rotation = ⟨1, 0⟩ :=
    rotationBasis_of_abs_le _ _ (by rw [hrot, abs_zero]; exact epsilon_pos.le)
  refine ⟨mem', hcall, ?_⟩
  intro j cx cy hj
  simp only [List.mem_cons, Prod.mk.injEq, List.mem_singleton, List.not_mem_nil, or_false] at hj
  rcases hj with ⟨rfl, rfl, rfl⟩ | ⟨rfl, rfl, rfl⟩ | ⟨rfl, rfl, rfl⟩ | ⟨rfl, rfl, rfl⟩
  · obtain ⟨i, hi, hslot⟩ := hw 0
    rw [vertexAt_of_cornerIndex npLolSincosf mem.drawInfo 0 i hi] at hslot
    exact ⟨_, hslot, by simp [hbasis, normalizedOrigin, epsilon, cornerOffsets],
      by simp [hbasis, normalizedOrigin, epsilon, cornerOffsets],
      fun ho => by simp [hbasis, normalizedOrigin, ho, cornerOffsets]⟩
  · obtain ⟨i, hi, hslot⟩ := hw 1
    rw [vertexAt_of_cornerIndex npLolSincosf mem.drawInfo 1 i hi] at hslot
    exact ⟨_, hslot, by simp [hbasis, normalizedOrigin, epsilon, cornerOffsets],
      by simp [hbasis, normalizedOrigin, epsilon, cornerOffsets],
      fun ho => by simp [hbasis, normalizedOrigin, ho, cornerOffsets]⟩
  · obtain ⟨i, hi, hslot⟩ := hw 2
    rw [vertexAt_of_cornerIndex npLolSincosf mem.drawInfo 2 i hi] at hslot
    exact ⟨_, hslot, by simp [hbasis, normalizedOrigin, epsilon, cornerOffsets],
      by simp [hbasis, normalizedOrigin, epsilon, cornerOffsets],
      fun ho => by simp [hbasis, normalizedOrigin, ho, cornerOffsets]⟩
  · obtain ⟨i, hi, hslot⟩ := hw 3
    rw [vertexAt_of_cornerIndex npLolSincosf mem.drawInfo 3 i hi] at hslot
    exact ⟨_, hslot, by simp [hbasis, normalizedOrigin, epsilon, cornerOffsets],
      by simp [hbasis, normalizedOrigin, epsilon, cornerOffsets],
      fun ho => by simp [hbasis, normalizedOrigin, ho, cornerOffsets]⟩

/-- C1, at the scenario of the specification: destination (10,10,20,20) and origin (0,0)
give the positions (10,10), (30,10), (30,30), (10,30). -/
theorem unrotated_positions_witness :
    scenarioInfo.Rotation = 0 ∧ 0 + 4 ≤ (memoryOf scenarioInfo 4).vertices.length ∧
    CornersDefined scenarioInfo ∧
    (∃ mem', UpdateBufferValuesFromElementInfo sincosStub (memoryOf scenarioInfo 4) 0 0 0
        = some mem' ∧
      ∀ (j : Nat) (cx cy : ℚ), (j, cx, cy) ∈ [(0, 0, 0), (1, 1, 0), (2, 1, 1), (3, 0, 1)] →
        ∃ v, mem'.vertices[0 + j]? = some v ∧
          v.Position.X = 10 + (cx - 0 / max (1 / 1000000) 50) * 20 ∧
          v.Position.Y = 10 + (cy - 0 / max (1 / 1000000) 50) * 20 ∧
          ((⟨0, 0⟩ : Vector2 ℚ) = ⟨0, 0⟩ →
            v.Position.X = 10 + cx * 20 ∧ v.Position.Y = 10 + cy * 20)) ∧
    (UpdateBufferValuesFromElementInfo sincosStub (memoryOf scenarioInfo 4) 0 0 0).map
        (fun m => m.vertices.map (fun v => (v.Position.X, v.Position.Y)))
      = some [(10, 10), (30, 10), (30, 30), (10, 30)] := by
  refine ⟨rfl, by decide, by decide,
    unrotated_positions sincosStub (memoryOf scenarioInfo 4) 0 0 0 rfl (by decide) (by decide),
    ?_⟩
  have h0 : cornerIndex 0 0 0 = some 0 := by decide
  have h1 : cornerIndex 0 0 1 = some 1 := by decide
  have h2 : cornerIndex 0 0 2 = some 2 := by decide
  have h3 : cornerIndex 0 0 3 = some 3 := by decide
  simp [UpdateBufferValuesFromElementInfo, forLoop, loopBody, storeVertex, memoryOf,
    scenarioInfo, rotationBasis, normalizedOrigin, cornerOffsets, epsilon, h0, h1, h2, h3]
  norm_num

/-- C2. With `SpriteEffects = 0`, `Orientation = 0` and non-zero texture size, a call on a
buffer with room writes into slot `vertexPointer + j`, for the corners
`(0,0), (1,0), (1,1), (0,1)` in this order, the texture coordinate
`((Source.x + corner.X * Source.width) * (1 / TextureSize.X),
  (Source.y + corner.Y * Source.height) * (1 / TextureSize.Y))`. -/
theorem unflipped_texture_coordinates (npLolSincosf : α → α × α) (mem : Memory α)
    (vertexPointer indexPointer : Nat) (vertexStartOffset : Int)
    (heff : mem.drawInfo.SpriteEffects = 0) (hori : mem.drawInfo.Orientation = 0)
    (_htx : mem.drawInfo.TextureSize.X ≠ 0) (_hty : mem.drawInfo.TextureSize.Y ≠ 0)
    (hcap : vertexPointer + 4 ≤ mem.vertices.length) :
    ∃ mem', UpdateBufferValuesFromElementInfo npLolSincosf mem vertexPointer indexPointer
        vertexStartOffset = some mem' ∧
      ∀ (j : Nat) (cx cy : α), (j, cx, cy) ∈ [(0, 0, 0), (1, 1, 0), (2, 1, 1), (3, 0, 1)] →
        ∃ v, mem'.vertices[vertexPointer + j]? = some v ∧
          v.TextureCoordinate.X
            = (mem.drawInfo.Source.x + cx * mem.drawInfo.Source.width)
              * (1 / mem.drawInfo.TextureSize.X) ∧
          v.TextureCoordinate.Y
            = (mem.drawInfo.Source.y + cy * mem.drawInfo.Source.height)
              * (1 / mem.drawInfo.TextureSize.Y) := by
  have hidx : ∀ j : Fin 4,
      cornerIndex mem.drawInfo.SpriteEffects mem.drawInfo.Orientation j = some j := by
    intro j
    rw [heff, hori]
    revert j
    decide
  have hdef : CornersDefined mem.drawInfo := fun j => by rw [hidx j]; rfl
  obtain ⟨mem', hcall, hw⟩ := update_writes npLolSincosf mem vertexPointer indexPointer
    vertexStartOffset hcap hdef
  refine ⟨mem', hcall, ?_⟩
  intro j cx cy hj
  simp only [List.mem_cons, Prod.mk.injEq, List.mem_singleton, List.not_mem_nil, or_false] at hj
  rcases hj with ⟨rfl, rfl, rfl⟩ | ⟨rfl, rfl, rfl⟩ | ⟨rfl, rfl, rfl⟩ | ⟨rfl, rfl, rfl⟩
  · have hslot := (hw 0).choose_spec.2
    rw [vertexAt_of_cornerIndex npLolSincosf mem.drawInfo 0 0 (hidx 0)] at hslot
    exact ⟨_, hslot, by simp [cornerOffsets], by simp [cornerOffsets]⟩
  · have hslot := (hw 1).choose_spec.2
    rw [vertexAt_of_cornerIndex npLolSincosf mem.drawInfo 1 1 (hidx 1)] at hslot
    exact ⟨_, hslot, by simp [cornerOffsets], by simp [cornerOffsets]⟩
  · have hslot := (hw 2).choose_spec.2
    rw [vertexAt_of_cornerIndex npLolSincosf mem.drawInfo 2 2 (hidx 2)] at hslot
    exact ⟨_, hslot, by simp [cornerOffsets], by simp [cornerOffsets]⟩
  · have hslot := (hw 3).choose_spec.2
    rw [vertexAt_of_cornerIndex npLolSincosf mem.drawInfo 3 3 (hidx 3)] at hslot
    exact ⟨_, hslot, by simp [cornerOffsets], by simp [cornerOffsets]⟩

/-- C2, at the scenario of the specification: texture 100x100 and source (0,0,50,50) give
the texture coordinates (0,0), (1/2,0), (1/2,1/2), (0,1/2). -/
theorem unflipped_texture_coordinates_witness :
    scenarioInfo.SpriteEffects = 0 ∧ scenarioInfo.Orientation = 0 ∧
    scenarioInfo.TextureSize.X ≠ 0 ∧ scenarioInfo.TextureSize.Y ≠ 0 ∧
    0 + 4 ≤ (memoryOf scenarioInfo 4).vertices.length ∧
    (∃ mem', UpdateBufferValuesFromElementInfo sincosStub (memoryOf scenarioInfo 4) 0 0 0
        = some mem' ∧
      ∀ (j : Nat) (cx cy : ℚ), (j, cx, cy) ∈ [(0, 0, 0), (1, 1, 0), (2, 1, 1), (3, 0, 1)] →
        ∃ v, mem'.vertices[0 + j]? = some v ∧
          v.TextureCoordinate.X = (0 + cx * 50) * (1 / 100) ∧
          v.TextureCoordinate.Y = (0 + cy * 50) * (1 / 100)) ∧
    (UpdateBufferValuesFromElementInfo sincosStub (memoryOf scenarioInfo 4) 0 0 0).map
        (fun m => m.vertices.map (fun v => (v.TextureCoordinate.X, v.TextureCoordinate.Y)))
      = some [(0, 0), (1 / 2, 0), (1 / 2, 1 / 2), (0, 1 / 2)] := by
  refine ⟨rfl, rfl, by simp [scenarioInfo], by simp [scenarioInfo], by decide,
    unflipped_texture_coordinates sincosStub (memoryOf scenarioInfo 4) 0 0 0 rfl rfl
      (by simp [memoryOf, scenarioInfo]) (by simp [memoryOf, scenarioInfo]) (by decide),
    ?_⟩
  have h0 : cornerIndex 0 0 0 = some 0 := by decide
  have h1 : cornerIndex 0 0 1 = some 1 := by decide
  have h2 : cornerIndex 0 0 2 = some 2 := by decide
  have h3 : cornerIndex 0 0 3 = some 3 := by decide
  simp [UpdateBufferValuesFromElementInfo, forLoop, loopBody, storeVertex, memoryOf,
    scenarioInfo, rotationBasis, normalizedOrigin, cornerOffsets, epsilon, h0, h1, h2, h3]
  norm_num

/-- C3. With `|Rotation| > 1e-6`, where `(sinR, cosR)` is the pair stored by the sincos
routine for `Rotation`, a defined call writes into slot `vertexPointer + j` the position
`Destination.(x,y)` plus the matrix `[cosR, -sinR; sinR, cosR]` applied to
`p = ((corner.X - origin.X) * Destination.width, (corner.Y - origin.Y) * Destination.height)`,
for the corners `(0,0), (1,0), (1,1), (0,1)` in this order. -/
theorem rotated_positions (npLolSincosf : α → α × α) (mem : Memory α)
    (vertexPointer indexPointer : Nat) (vertexStartOffset : Int)
    (hrot : 1 / 1000000 < |mem.drawInfo.Rotation|)
    (hcap : vertexPointer + 4 ≤ mem.vertices.length)
    (hdef : CornersDefined mem.drawInfo) :
    ∃ mem', UpdateBufferValuesFromElementInfo npLolSincosf mem vertexPointer indexPointer
        vertexStartOffset = some mem' ∧
      ∀ (j : Nat) (cx cy : α), (j, cx, cy) ∈ [(0, 0, 0), (1, 1, 0), (2, 1, 1), (3, 0, 1)] →
        ∀ sinR cosR pX pY : α,
          sinR = (npLolSincosf mem.drawInfo.Rotation).1 →
          cosR = (npLolSincosf mem.drawInfo.Rotation).2 →
          pX = (cx - mem.drawInfo.Origin.X / max (1 / 1000000) mem.drawInfo.Source.width)
            * mem.drawInfo.Destination.width →
          pY = (cy - mem.drawInfo.Origin.Y / max (1 / 1000000) mem.drawInfo.Source.height)
            * mem.drawInfo.Destination.height →
          ∃ v, mem'.vertices[vertexPointer + j]? = some v ∧
            v.Position.X = mem.drawInfo.Destination.x + pX * cosR - pY * sinR ∧
            v.Position.Y = mem.drawInfo.Destination.y + pX * sinR + pY * cosR := by
  obtain ⟨mem', hcall, hw⟩ := update_writes npLolSincosf mem vertexPointer indexPointer
    vertexStartOffset hcap hdef
  have hbasis : rotationBasis npLolSincosf mem.drawInfo.Rotation
      = ⟨(npLolSincosf mem.drawInfo.Rotation).2, (npLolSincosf mem.drawInfo.Rotation).1⟩ :=
    rotationBasis_of_lt_abs _ _ hrot
  refine ⟨mem', hcall, ?_⟩
  intro j cx cy hj sinR cosR pX pY hs hc hx hy
  subst hs hc hx hy
  simp only [List.mem_cons, Prod.mk.injEq, List.mem_singleton, List.not_mem_nil, or_false] at hj
  rcases hj with ⟨rfl, rfl, rfl⟩ | ⟨rfl, rfl, rfl⟩ | ⟨rfl, rfl, rfl⟩ | ⟨rfl, rfl, rfl⟩
  · obtain ⟨i, hi, hslot⟩ := hw 0
    rw [vertexAt_of_cornerIndex npLolSincosf mem.drawInfo 0 i hi] at hslot
    exact ⟨_, hslot, by simp [hbasis, normalizedOrigin, epsilon, cornerOffsets],
      by simp [hbasis, normalizedOrigin, epsilon, cornerOffsets]⟩
  · obtain ⟨i, hi, hslot⟩ := hw 1
    rw [vertexAt_of_cornerIndex npLolSincosf mem.drawInfo 1 i hi] at hslot
    exact ⟨_, hslot, by simp [hbasis, normalizedOrigin, epsilon, cornerOffsets],
      by simp [hbasis, normalizedOrigin, epsilon, cornerOffsets]⟩
  · obtain ⟨i, hi, hslot⟩ := hw 2
    rw [vertexAt_of_cornerIndex npLolSincosf mem.drawInfo 2 i hi] at hslot
    exact ⟨_, hslot, by simp [hbasis, normalizedOrigin, epsilon, cornerOffsets],
      by simp [hbasis, normalizedOrigin, epsilon, cornerOffsets]⟩
  · obtain ⟨i, hi, hslot⟩ := hw 3
    rw [vertexAt_of_cornerIndex npLolSincosf mem.drawInfo 3 i hi] at hslot
    exact ⟨_, hslot, by simp [hbasis, normalizedOrigin, epsilon, cornerOffsets],
      by simp [hbasis, normalizedOrigin, epsilon, cornerOffsets]⟩

/-- C3, at a rotated sprite anchored at its centre, with a routine that stores
`(sin, cos) = (3/5, 4/5)`: the four positions are (8,-4), (24,8), (12,24), (-4,12). -/
theorem rotated_positions_witness :
    (1 : ℚ) / 1000000 < |turnedInfo.Rotation| ∧
    1 + 4 ≤ (memoryOf turnedInfo 6).vertices.length ∧
    CornersDefined turnedInfo ∧
    (∃ mem', UpdateBufferValuesFromElementInfo sincosStub (memoryOf turnedInfo 6) 1 0 0
        = some mem' ∧
      ∀ (j : Nat) (cx cy : ℚ), (j, cx, cy) ∈ [(0, 0, 0), (1, 1, 0), (2, 1, 1), (3, 0, 1)] →
        ∀ sinR cosR pX pY : ℚ,
          sinR = 3 / 5 → cosR = 4 / 5 →
          pX = (cx - 25 / max (1 / 1000000) 50) * 20 →
          pY = (cy - 25 / max (1 / 1000000) 50) * 20 →
          ∃ v, mem'.vertices[1 + j]? = some v ∧
            v.Position.X = 10 + pX * cosR - pY * sinR ∧
            v.Position.Y = 10 + pX * sinR + pY * cosR) ∧
    (UpdateBufferValuesFromElementInfo sincosStub (memoryOf turnedInfo 6) 1 0 0).map
        (fun m => m.vertices.map (fun v => (v.Position.X, v.Position.Y)))
      = some [(0, 0), (8, -4), (24, 8), (12, 24), (-4, 12), (0, 0)] := by
  have hrot : (1 : ℚ) / 1000000 < |turnedInfo.Rotation| := by
    norm_num [turnedInfo, scenarioInfo]
  refine ⟨hrot, by decide, by decide,
    rotated_positions sincosStub (memoryOf turnedInfo 6) 1 0 0 hrot (by decide) (by decide),
    ?_⟩
  have h0 : cornerIndex 1 1 0 = some 2 := by decide
  have h1 : cornerIndex 1 1 1 = some 1 := by decide
  have h2 : cornerIndex 1 1 2 = some 0 := by decide
  have h3 : cornerIndex 1 1 3 = some 3 := by decide
  simp [UpdateBufferValuesFromElementInfo, forLoop, loopBody, storeVertex, memoryOf,
    turnedInfo, scenarioInfo, rotationBasis, normalizedOrigin, cornerOffsets, epsilon,
    sincosStub, blankVertex, h0, h1, h2, h3]
  norm_num

/-- C4, refuted as stated: `Orientation = 2147483647` is a non-negative `int`, yet for
vertex 2 the addition `(2 ^ 0) + 2147483647` leaves the `int` range, the table subscript is
undefined and the call has no result, while at `Orientation = 0` the call is defined and
vertex `(2 + 2147483647) mod 4 = 1` has the corner `(1, 0)`. -/
theorem orientation_shift_counterexample :
    overflowInfo.SpriteEffects = 0 ∧ 0 ≤ overflowInfo.Orientation ∧
    overflowInfo.Orientation ≤ INT_MAX ∧
    cornerIndex overflowInfo.SpriteEffects overflowInfo.Orientation 2 = none ∧
    UpdateBufferValuesFromElementInfo sincosStub (memoryOf overflowInfo 4) 0 0 0 = none ∧
    (2 + 2147483647) % 4 = 1 ∧ cornerIndex 0 0 1 = some 1 ∧
    (UpdateBufferValuesFromElementInfo sincosStub
      (memoryOf { overflowInfo with Orientation := 0 } 4) 0 0 0).isSome = true := by
  decide

/-- C4, amended. With `SpriteEffects = 0` and an `Orientation` `n` with `0 ≤ n` and
`n + 3 ≤ 2147483647` (so that `j + n` does not overflow for `j ≤ 3`), the call and the call
with `Orientation = 0` both return, and vertex `j` at `Orientation = n` has the texture
coordinate of vertex `(j + n) mod 4` at `Orientation = 0`; with `n = 4` every vertex has
the texture coordinate it has at `Orientation = 0`. -/
theorem orientation_shift (npLolSincosf : α → α × α) (mem : Memory α)
    (vertexPointer indexPointer : Nat) (vertexStartOffset : Int) (n : Nat)
    (heff : mem.drawInfo.SpriteEffects = 0) (hori : mem.drawInfo.Orientation = (n : Int))
    (hrange : n + 3 ≤ 2147483647)
    (hcap : vertexPointer + 4 ≤ mem.vertices.length) :
    ∃ memN mem0,
      UpdateBufferValuesFromElementInfo npLolSincosf mem vertexPointer indexPointer
        vertexStartOffset = some memN ∧
      UpdateBufferValuesFromElementInfo npLolSincosf
        { mem with drawInfo := { mem.drawInfo with Orientation := 0 } }
        vertexPointer indexPointer vertexStartOffset = some mem0 ∧
      (∀ j : Fin 4, ∃ v w, memN.vertices[vertexPointer + j.val]? = some v ∧
        mem0.vertices[vertexPointer + (j.val + n) % 4]? = some w ∧
        v.TextureCoordinate = w.TextureCoordinate) ∧
      (n = 4 → ∀ j : Fin 4, ∃ v w, memN.vertices[vertexPointer + j.val]? = some v ∧
        mem0.vertices[vertexPointer + j.val]? = some w ∧
        v.TextureCoordinate = w.TextureCoordinate) := by
  have hidxN : ∀ j : Fin 4,
      cornerIndex mem.drawInfo.SpriteEffects mem.drawInfo.Orientation j
        = some ⟨(j.val + n) % 4, Nat.mod_lt _ (by decide)⟩ := by
    intro j
    have hj := j.isLt
    have h := cornerIndex_natCast 0 n j (by rw [Nat.xor_zero]; omega)
    rw [heff, hori]
    simpa using h
  have hidx0 : ∀ j : Fin 4, cornerIndex mem.drawInfo.SpriteEffects 0 j = some j := by
    intro j
    rw [heff]
    revert j
    decide
  have hdefN : CornersDefined mem.drawInfo := fun j => by rw [hidxN j]; rfl
  have hdef0 : CornersDefined { mem.drawInfo with Orientation := 0 } := fun j => by
    show (cornerIndex mem.drawInfo.SpriteEffects 0 j).isSome = true
    rw [hidx0 j]; rfl
  obtain ⟨memN, hN, hwN⟩ := update_writes npLolSincosf mem vertexPointer indexPointer
    vertexStartOffset hcap hdefN
  obtain ⟨mem0, h0, hw0⟩ := update_writes npLolSincosf
    { mem with drawInfo := { mem.drawInfo with Orientation := 0 } }
    vertexPointer indexPointer vertexStartOffset hcap hdef0
  have key : ∀ j : Fin 4, ∃ v w, memN.vertices[vertexPointer + j.val]? = some v ∧
      mem0.vertices[vertexPointer + (j.val + n) % 4]? = some w ∧
      v.TextureCoordinate = w.TextureCoordinate := by
    intro j
    have hsN := (hwN j).choose_spec.2
    have hs0 := (hw0 ⟨(j.val + n) % 4, Nat.mod_lt _ (by decide)⟩).choose_spec.2
    rw [vertexAt_of_cornerIndex npLolSincosf mem.drawInfo j _ (hidxN j)] at hsN
    rw [vertexAt_of_cornerIndex npLolSincosf _ _ _ (hidx0 _)] at hs0
    exact ⟨_, _, hsN, hs0, rfl⟩
  refine ⟨memN, mem0, hN, h0, key, ?_⟩
  intro hn j
  have hj := j.isLt
  have hmod : (j.val + n) % 4 = j.val := by omega
  have := key j
  rwa [hmod] at this

/-- C4 (amended) at `Orientation = 1`: the texture corners are shifted by one vertex. -/
theorem orientation_shift_witness :
    scenarioInfo.SpriteEffects = 0 ∧
    ({ scenarioInfo with Orientation := 1 } : SpriteDrawInfo ℚ).Orientation = ((1 : Nat) : Int) ∧
    1 + 3 ≤ 2147483647 ∧ 0 + 4 ≤ (memoryOf scenarioInfo 4).vertices.length ∧
    ∃ memN mem0,
      UpdateBufferValuesFromElementInfo sincosStub
        (memoryOf { scenarioInfo with Orientation := 1 } 4) 0 0 0 = some memN ∧
      UpdateBufferValuesFromElementInfo sincosStub (memoryOf scenarioInfo 4) 0 0 0
        = some mem0 ∧
      (∀ j : Fin 4, ∃ v w, memN.vertices[0 + j.val]? = some v ∧
        mem0.vertices[0 + (j.val + 1) % 4]? = some w ∧
        v.TextureCoordinate = w.TextureCoordinate) ∧
      (1 = 4 → ∀ j : Fin 4, ∃ v w, memN.vertices[0 + j.val]? = some v ∧
        mem0.vertices[0 + j.val]? = some w ∧
        v.TextureCoordinate = w.TextureCoordinate) :=
  ⟨rfl, rfl, by decide, by decide,
    orientation_shift sincosStub (memoryOf { scenarioInfo with Orientation := 1 } 4) 0 0 0 1
      rfl rfl (by decide) (by decide)⟩

/-- C5, refuted as stated: `SpriteEffects = 0` and `Orientation = 2147483647` are
non-negative `int`s, yet for vertex 1 the addition `(1 ^ 0) + 2147483647` leaves the `int`
range; the call and the call with bit 0 toggled both have undefined table subscripts and
neither yields the texture coordinates the claim relates. -/
theorem horizontal_flip_counterexample :
    0 ≤ overflowInfo.SpriteEffects ∧ 0 ≤ overflowInfo.Orientation ∧
    overflowInfo.Orientation ≤ INT_MAX ∧ Int.xor overflowInfo.SpriteEffects 1 = 1 ∧
    cornerIndex overflowInfo.SpriteEffects overflowInfo.Orientation 1 = none ∧
    cornerIndex (Int.xor overflowInfo.SpriteEffects 1) overflowInfo.Orientation 0 = none ∧
    0 + 4 ≤ (memoryOf overflowInfo 4).vertices.length ∧
    UpdateBufferValuesFromElementInfo sincosStub (memoryOf overflowInfo 4) 0 0 0 = none ∧
    UpdateBufferValuesFromElementInfo sincosStub
      (memoryOf { overflowInfo with SpriteEffects := Int.xor overflowInfo.SpriteEffects 1 } 4)
      0 0 0 = none := by
  decide

/-- C5, amended. For non-negative `SpriteEffects = e` and `Orientation = o` such that
`(j ^ e) + o` stays within a 32-bit `int` for `j = 0..3`, the call and the call with bit 0
of `SpriteEffects` toggled (`e ^ 1`) both return on a buffer with room; vertex `j` of the
toggled run has the texture coordinate vertex `j ^ 1` has in the other run (0 and 1
exchanged, 2 and 3 exchanged), and every vertex has the same position in both runs. -/
theorem horizontal_flip_swaps (npLolSincosf : α → α × α) (mem : Memory α)
    (vertexPointer indexPointer : Nat) (vertexStartOffset : Int) (e o : Nat)
    (heff : mem.drawInfo.SpriteEffects = (e : Int))
    (hori : mem.drawInfo.Orientation = (o : Int))
    (hrange : ∀ j : Fin 4, (j.val ^^^ e) + o ≤ 2147483647)
    (hcap : vertexPointer + 4 ≤ mem.vertices.length) :
    ∃ memA memB,
      UpdateBufferValuesFromElementInfo npLolSincosf mem vertexPointer indexPointer
        vertexStartOffset = some memA ∧
      UpdateBufferValuesFromElementInfo npLolSincosf
        { mem with drawInfo :=
            { mem.drawInfo with SpriteEffects := Int.xor mem.drawInfo.SpriteEffects 1 } }
        vertexPointer indexPointer vertexStartOffset = some memB ∧
      (∀ j k : Nat, (j, k) ∈ [(0, 1), (1, 0), (2, 3), (3, 2)] →
        ∃ v w, memB.vertices[vertexPointer + j]? = some v ∧
          memA.vertices[vertexPointer + k]? = some w ∧
          v.TextureCoordinate = w.TextureCoordinate) ∧
      (∀ j : Fin 4, ∃ v w, memB.vertices[vertexPointer + j.val]? = some v ∧
          memA.vertices[vertexPointer + j.val]? = some w ∧ v.Position = w.Position) := by
  have hdef : CornersDefined mem.drawInfo := fun j => by
    rw [heff, hori, cornerIndex_natCast e o j (hrange j)]
    rfl
  obtain ⟨memA, memB, hA, hB, h⟩ := update_xor_flags npLolSincosf mem vertexPointer
    indexPointer vertexStartOffset 1 (by decide) hcap hdef
  refine ⟨memA, memB, hA, hB, ?_, ?_⟩
  · intro j k hjk
    simp only [List.mem_cons, Prod.mk.injEq, List.mem_singleton, List.not_mem_nil,
      or_false] at hjk
    rcases hjk with ⟨rfl, rfl⟩ | ⟨rfl, rfl⟩ | ⟨rfl, rfl⟩ | ⟨rfl, rfl⟩
    · obtain ⟨v, w, _, hv, hw, _, ht, _⟩ := h 0 1 (by decide)
      exact ⟨v, w, hv, hw, ht⟩
    · obtain ⟨v, w, _, hv, hw, _, ht, _⟩ := h 1 0 (by decide)
      exact ⟨v, w, hv, hw, ht⟩
    · obtain ⟨v, w, _, hv, hw, _, ht, _⟩ := h 2 3 (by decide)
      exact ⟨v, w, hv, hw, ht⟩
    · obtain ⟨v, w, _, hv, hw, _, ht, _⟩ := h 3 2 (by decide)
      exact ⟨v, w, hv, hw, ht⟩
  · intro j
    obtain ⟨v, _, u, hv, _, hu, _, hp⟩ := h j ⟨j.val ^^^ 1,
      Nat.xor_lt_two_pow (n := 2) j.isLt (by decide)⟩ rfl
    exact ⟨v, u, hv, hu, hp⟩

/-- C5 (amended) at the rotated sprite (`SpriteEffects = 1`, `Orientation = 1`). -/
theorem horizontal_flip_swaps_witness :
    turnedInfo.SpriteEffects = ((1 : Nat) : Int) ∧ turnedInfo.Orientation = ((1 : Nat) : Int) ∧
    (∀ j : Fin 4, (j.val ^^^ 1) + 1 ≤ 2147483647) ∧
    1 + 4 ≤ (memoryOf turnedInfo 6).vertices.length ∧
    ∃ memA memB,
      UpdateBufferValuesFromElementInfo sincosStub (memoryOf turnedInfo 6) 1 0 0 = some memA ∧
      UpdateBufferValuesFromElementInfo sincosStub
        (memoryOf { turnedInfo with SpriteEffects := Int.xor 1 1 } 6) 1 0 0 = some memB ∧
      (∀ j k : Nat, (j, k) ∈ [(0, 1), (1, 0), (2, 3), (3, 2)] →
        ∃ v w, memB.vertices[1 + j]? = some v ∧ memA.vertices[1 + k]? = some w ∧
          v.TextureCoordinate = w.TextureCoordinate) ∧
      (∀ j : Fin 4, ∃ v w, memB.vertices[1 + j.val]? = some v ∧
          memA.vertices[1 + j.val]? = some w ∧ v.Position = w.Position) :=
  ⟨rfl, rfl, by decide, by decide,
    horizontal_flip_swaps sincosStub (memoryOf turnedInfo 6) 1 0 0 1 1 rfl rfl (by decide)
      (by decide)⟩

/-- C6, refuted as stated: in the scenario (`Orientation = 0`), going from
`SpriteEffects = 0` to `SpriteEffects = 2` gives vertex 0 the texture coordinate
`(1/2, 1/2)`; the vertex vertically opposite, vertex 3, had `(0, 1/2)`, and vertex 0 had
`(0, 0)`, so vertex 0 neither receives the coordinate of vertex 3 nor keeps its texture X. -/
theorem vertical_flip_counterexample :
    scenarioInfo.Orientation = 0 ∧ bitOneInfo.Orientation = 0 ∧
    bitOneInfo.SpriteEffects = Int.xor scenarioInfo.SpriteEffects 2 ∧
    (UpdateBufferValuesFromElementInfo sincosStub (memoryOf scenarioInfo 4) 0 0 0).map
        (fun m => m.vertices.map (fun v => (v.TextureCoordinate.X, v.TextureCoordinate.Y)))
      = some [(0, 0), (1 / 2, 0), (1 / 2, 1 / 2), (0, 1 / 2)] ∧
    (UpdateBufferValuesFromElementInfo sincosStub (memoryOf bitOneInfo 4) 0 0 0).map
        (fun m => m.vertices.map (fun v => (v.TextureCoordinate.X, v.TextureCoordinate.Y)))
      = some [(1 / 2, 1 / 2), (0, 1 / 2), (0, 0), (1 / 2, 0)] ∧
    ((1 / 2 : ℚ), (1 / 2 : ℚ)) ≠ (0, 1 / 2) ∧ (1 / 2 : ℚ) ≠ 0 := by
  have h0 : cornerIndex 0 0 0 = some 0 := by decide
  have h1 : cornerIndex 0 0 1 = some 1 := by decide
  have h2 : cornerIndex 0 0 2 = some 2 := by decide
  have h3 : cornerIndex 0 0 3 = some 3 := by decide
  have g0 : cornerIndex 2 0 0 = some 2 := by decide
  have g1 : cornerIndex 2 0 1 = some 3 := by decide
  have g2 : cornerIndex 2 0 2 = some 0 := by decide
  have g3 : cornerIndex 2 0 3 = some 1 := by decide
  refine ⟨rfl, rfl, by decide, ?_, ?_, by norm_num, by norm_num⟩
  · simp [UpdateBufferValuesFromElementInfo, forLoop, loopBody, storeVertex, memoryOf,
      scenarioInfo, rotationBasis, normalizedOrigin, cornerOffsets, epsilon, h0, h1, h2, h3]
    norm_num
  · simp [UpdateBufferValuesFromElementInfo, forLoop, loopBody, storeVertex, memoryOf,
      bitOneInfo, scenarioInfo, rotationBasis, normalizedOrigin, cornerOffsets, epsilon,
      g0, g1, g2, g3]
    norm_num

/-- C6, amended. With `Orientation = 0`, the call with bit 1 of `SpriteEffects` toggled
(`e ^ 2`) is defined exactly when the call with `e` is; and when they are, vertex `j` of
the toggled run has the texture coordinate of the vertex diagonally opposite it, vertex
`j ^ 2` (0 and 2 exchanged, 1 and 3 exchanged), in the other run, and every vertex has the
same position in both runs. -/
theorem bit_one_swaps_diagonal (npLolSincosf : α → α × α) (mem : Memory α)
    (vertexPointer indexPointer : Nat) (vertexStartOffset : Int)
    (_hori : mem.drawInfo.Orientation = 0) :
    (UpdateBufferValuesFromElementInfo npLolSincosf
        { mem with drawInfo :=
            { mem.drawInfo with SpriteEffects := Int.xor mem.drawInfo.SpriteEffects 2 } }
        vertexPointer indexPointer vertexStartOffset).isSome
      = (UpdateBufferValuesFromElementInfo npLolSincosf mem vertexPointer indexPointer
        vertexStartOffset).isSome ∧
    (vertexPointer + 4 ≤ mem.vertices.length → CornersDefined mem.drawInfo →
      ∃ memA memB,
        UpdateBufferValuesFromElementInfo npLolSincosf mem vertexPointer indexPointer
          vertexStartOffset = some memA ∧
        UpdateBufferValuesFromElementInfo npLolSincosf
          { mem with drawInfo :=
              { mem.drawInfo with SpriteEffects := Int.xor mem.drawInfo.SpriteEffects 2 } }
          vertexPointer indexPointer vertexStartOffset = some memB ∧
        (∀ j k : Nat, (j, k) ∈ [(0, 2), (1, 3), (2, 0), (3, 1)] →
          ∃ v w, memB.vertices[vertexPointer + j]? = some v ∧
            memA.vertices[vertexPointer + k]? = some w ∧
            v.TextureCoordinate = w.TextureCoordinate) ∧
        (∀ j : Fin 4, ∃ v w, memB.vertices[vertexPointer + j.val]? = some v ∧
            memA.vertices[vertexPointer + j.val]? = some w ∧ v.Position = w.Position)) := by
  refine ⟨update_xor_flags_isSome npLolSincosf mem vertexPointer indexPointer
    vertexStartOffset 2 (by decide), fun hcap hdef => ?_⟩
  obtain ⟨memA, memB, hA, hB, h⟩ := update_xor_flags npLolSincosf mem vertexPointer
    indexPointer vertexStartOffset 2 (by decide) hcap hdef
  refine ⟨memA, memB, hA, hB, ?_, ?_⟩
  · intro j k hjk
    simp only [List.mem_cons, Prod.mk.injEq, List.mem_singleton, List.not_mem_nil,
      or_false] at hjk
    rcases hjk with ⟨rfl, rfl⟩ | ⟨rfl, rfl⟩ | ⟨rfl, rfl⟩ | ⟨rfl, rfl⟩
    · obtain ⟨v, w, _, hv, hw, _, ht, _⟩ := h 0 2 (by decide)
      exact ⟨v, w, hv, hw, ht⟩
    · obtain ⟨v, w, _, hv, hw, _, ht, _⟩ := h 1 3 (by decide)
      exact ⟨v, w, hv, hw, ht⟩
    · obtain ⟨v, w, _, hv, hw, _, ht, _⟩ := h 2 0 (by decide)
      exact ⟨v, w, hv, hw, ht⟩
    · obtain ⟨v, w, _, hv, hw, _, ht, _⟩ := h 3 1 (by decide)
      exact ⟨v, w, hv, hw, ht⟩
  · intro j
    obtain ⟨v, _, u, hv, _, hu, _, hp⟩ := h j ⟨j.val ^^^ 2,
      Nat.xor_lt_two_pow (n := 2) j.isLt (by decide)⟩ rfl
    exact ⟨v, u, hv, hu, hp⟩

/-- C6 (amended) at the scenario: `SpriteEffects = 0` against `SpriteEffects = 2`. -/
theorem bit_one_swaps_diagonal_witness :
    scenarioInfo.Orientation = 0 ∧ 0 + 4 ≤ (memoryOf scenarioInfo 4).vertices.length ∧
    CornersDefined scenarioInfo ∧
    ∃ memA memB,
      UpdateBufferValuesFromElementInfo sincosStub (memoryOf scenarioInfo 4) 0 0 0
        = some memA ∧
      UpdateBufferValuesFromElementInfo sincosStub (memoryOf bitOneInfo 4) 0 0 0
        = some memB ∧
      (∀ j k : Nat, (j, k) ∈ [(0, 2), (1, 3), (2, 0), (3, 1)] →
        ∃ v w, memB.vertices[0 + j]? = some v ∧ memA.vertices[0 + k]? = some w ∧
          v.TextureCoordinate = w.TextureCoordinate) ∧
      (∀ j : Fin 4, ∃ v w, memB.vertices[0 + j.val]? = some v ∧
          memA.vertices[0 + j.val]? = some w ∧ v.Position = w.Position) :=
  ⟨rfl, by decide, by decide,
    (bit_one_swaps_diagonal sincosStub (memoryOf scenarioInfo 4) 0 0 0 rfl).2 (by decide)
      (by decide)⟩

/-- C7. With `|Rotation| ≤ 1e-6` (the bound included, either sign) the rotation vector is
`(1, 0)`, and a defined call writes a vertex buffer identical to the one written for the
same draw info with `Rotation = 0`, whatever sine/cosine routines the two calls are given:
the routine is not consulted. -/
theorem small_rotation_as_zero (sincosA sincosB : α → α × α) (mem : Memory α)
    (vertexPointer indexPointer : Nat) (vertexStartOffset : Int)
    (hrot : |mem.drawInfo.Rotation| ≤ 1 / 1000000)
    (hcap : vertexPointer + 4 ≤ mem.vertices.length) (hdef : CornersDefined mem.drawInfo) :
    rotationBasis sincosA mem.drawInfo.Rotation = ⟨1, 0⟩ ∧
    ∃ memR mem0,
      UpdateBufferValuesFromElementInfo sincosA mem vertexPointer indexPointer
        vertexStartOffset = some memR ∧
      UpdateBufferValuesFromElementInfo sincosB
        { mem with drawInfo := { mem.drawInfo with Rotation := 0 } }
        vertexPointer indexPointer vertexStartOffset = some mem0 ∧
      memR.vertices = mem0.vertices ∧
      ∀ j : Fin 4, ∃ v, memR.vertices[vertexPointer + j.val]? = some v ∧
        mem0.vertices[vertexPointer + j.val]? = some v := by
  have hbR : rotationBasis sincosA mem.drawInfo.Rotation = ⟨1, 0⟩ :=
    rotationBasis_of_abs_le _ _ hrot
  have hb0 : rotationBasis sincosB (0 : α) = ⟨1, 0⟩ :=
    rotationBasis_of_abs_le _ _ (by rw [abs_zero]; exact epsilon_pos.le)
  obtain ⟨memR, hR, hwR⟩ := update_writes sincosA mem vertexPointer indexPointer
    vertexStartOffset hcap hdef
  have hcall0 : UpdateBufferValuesFromElementInfo sincosB
      { mem with drawInfo := { mem.drawInfo with Rotation := 0 } }
      vertexPointer indexPointer vertexStartOffset
      = some { memR with drawInfo := { mem.drawInfo with Rotation := 0 } } := by
    have hbody : loopBody ({ mem.drawInfo with Rotation := 0 } : SpriteDrawInfo α)
        (1 / mem.drawInfo.TextureSize.X) (1 / mem.drawInfo.TextureSize.Y)
        (rotationBasis sincosB 0) (normalizedOrigin mem.drawInfo)
        = loopBody mem.drawInfo (1 / mem.drawInfo.TextureSize.X)
          (1 / mem.drawInfo.TextureSize.Y) (rotationBasis sincosA mem.drawInfo.Rotation)
          (normalizedOrigin mem.drawInfo) := by
      rw [hbR, hb0]
      rfl
    unfold UpdateBufferValuesFromElementInfo at hR ⊢
    simp only at hR ⊢
    have horigin : normalizedOrigin ({ mem.drawInfo with Rotation := 0 } : SpriteDrawInfo α)
        = normalizedOrigin mem.drawInfo := rfl
    rw [horigin, hbody]
    split at hR
    · exact absurd hR (by simp)
    · simp only [Option.some.injEq] at hR
      subst hR
      rfl
  refine ⟨hbR, memR, _, hR, hcall0, rfl, ?_⟩
  intro j
  obtain ⟨i, hi, hslot⟩ := hwR j
  rw [vertexAt_of_cornerIndex sincosA mem.drawInfo j i hi] at hslot
  exact ⟨_, hslot, hslot⟩

/-- C7 at the boundary value `Rotation = 1e-6`, with two different routines. -/
theorem small_rotation_as_zero_witness :
    |thresholdInfo.Rotation| ≤ 1 / 1000000 ∧
    0 + 4 ≤ (memoryOf thresholdInfo 4).vertices.length ∧ CornersDefined thresholdInfo ∧
    rotationBasis sincosStub thresholdInfo.Rotation = ⟨1, 0⟩ ∧
    ∃ memR mem0,
      UpdateBufferValuesFromElementInfo sincosStub (memoryOf thresholdInfo 4) 0 0 0
        = some memR ∧
      UpdateBufferValuesFromElementInfo (fun _ => ((0 : ℚ), (1 : ℚ)))
        (memoryOf { thresholdInfo with Rotation := 0 } 4) 0 0 0 = some mem0 ∧
      memR.vertices = mem0.vertices ∧
      ∀ j : Fin 4, ∃ v, memR.vertices[0 + j.val]? = some v ∧
        mem0.vertices[0 + j.val]? = some v := by
  have hrot : |thresholdInfo.Rotation| ≤ 1 / 1000000 := by
    norm_num [thresholdInfo, scenarioInfo, abs_of_pos]
  exact ⟨hrot, by decide, by decide,
    small_rotation_as_zero sincosStub (fun _ => ((0 : ℚ), (1 : ℚ))) (memoryOf thresholdInfo 4)
      0 0 0 hrot (by decide) (by decide)⟩

/-- C8. In a defined call each of the four written vertices has `Position.Z = Depth`,
`Position.W = 1`, and the `ColorScale`, `ColorAdd` and `Swizzle` of the draw info,
whatever `Rotation`, `Origin`, `SpriteEffects` and `Orientation` are. -/
theorem copied_fields (npLolSincosf : α → α × α) (mem : Memory α)
    (vertexPointer indexPointer : Nat) (vertexStartOffset : Int)
    (hcap : vertexPointer + 4 ≤ mem.vertices.length) (hdef : CornersDefined mem.drawInfo) :
    ∃ mem', UpdateBufferValuesFromElementInfo npLolSincosf mem vertexPointer indexPointer
        vertexStartOffset = some mem' ∧
      ∀ j : Fin 4, ∃ v, mem'.vertices[vertexPointer + j.val]? = some v ∧
        v.Position.Z = mem.drawInfo.Depth ∧ v.Position.W = 1 ∧
        v.ColorScale = mem.drawInfo.ColorScale ∧ v.ColorAdd = mem.drawInfo.ColorAdd ∧
        v.Swizzle = mem.drawInfo.Swizzle := by
  obtain ⟨mem', hcall, hw⟩ := update_writes npLolSincosf mem vertexPointer indexPointer
    vertexStartOffset hcap hdef
  refine ⟨mem', hcall, fun j => ?_⟩
  obtain ⟨i, hi, hslot⟩ := hw j
  rw [vertexAt_of_cornerIndex npLolSincosf mem.drawInfo j i hi] at hslot
  exact ⟨_, hslot, rfl, rfl, rfl, rfl, rfl⟩

/-- C8 at the rotated, flipped, re-oriented sprite: depth 7, white scale, black add,
swizzle 2 in all four vertices. -/
theorem copied_fields_witness :
    1 + 4 ≤ (memoryOf turnedInfo 6).vertices.length ∧ CornersDefined turnedInfo ∧
    ∃ mem', UpdateBufferValuesFromElementInfo sincosStub (memoryOf turnedInfo 6) 1 0 0
        = some mem' ∧
      ∀ j : Fin 4, ∃ v, mem'.vertices[1 + j.val]? = some v ∧
        v.Position.Z = 7 ∧ v.Position.W = 1 ∧
        v.ColorScale = white ∧ v.ColorAdd = black ∧ v.Swizzle = 2 :=
  ⟨by decide, by decide,
    copied_fields sincosStub (memoryOf turnedInfo 6) 1 0 0 (by decide) (by decide)⟩

/-- C9, refuted as stated: with `vertexStartOffset = 4` and the pointer at slot 0 of an
eight-slot buffer, the four vertices land in slots 0..3 and slots 4..7 keep their blank
content: the written region starts at the pointer, not at `vertexStartOffset`. -/
theorem start_offset_counterexample :
    (UpdateBufferValuesFromElementInfo sincosStub (memoryOf scenarioInfo 8) 0 0 4).map
        (fun m => m.vertices.map (fun v => (v.Position.X, v.Position.Y)))
      = some [(10, 10), (30, 10), (30, 30), (10, 30), (0, 0), (0, 0), (0, 0), (0, 0)] ∧
    (UpdateBufferValuesFromElementInfo sincosStub (memoryOf scenarioInfo 8) 0 0 4).map
        (fun m => m.vertices.drop 4)
      = some ((memoryOf scenarioInfo 8).vertices.drop 4) := by
  have h0 : cornerIndex 0 0 0 = some 0 := by decide
  have h1 : cornerIndex 0 0 1 = some 1 := by decide
  have h2 : cornerIndex 0 0 2 = some 2 := by decide
  have h3 : cornerIndex 0 0 3 = some 3 := by decide
  constructor
  · simp [UpdateBufferValuesFromElementInfo, forLoop, loopBody, storeVertex, memoryOf,
      scenarioInfo, rotationBasis, normalizedOrigin, cornerOffsets, epsilon, blankVertex,
      h0, h1, h2, h3]
    norm_num
  · simp [UpdateBufferValuesFromElementInfo, forLoop, loopBody, storeVertex, memoryOf,
      scenarioInfo, h0, h1, h2, h3]

/-- C9, amended. A defined call has the same result for every `vertexStartOffset`, and
that result holds the vertex of iteration `j` in slot `vertexPointer + j`, `j = 0..3`: the
four vertices are written to the four slots starting where `vertexPointer` points. -/
theorem writes_at_pointer (npLolSincosf : α → α × α) (mem : Memory α)
    (vertexPointer indexPointer : Nat)
    (hcap : vertexPointer + 4 ≤ mem.vertices.length) (hdef : CornersDefined mem.drawInfo) :
    ∃ mem', (∀ vertexStartOffset : Int,
        UpdateBufferValuesFromElementInfo npLolSincosf mem vertexPointer indexPointer
          vertexStartOffset = some mem') ∧
      ∀ j : Fin 4, ∃ v, vertexAt npLolSincosf mem.drawInfo j = some v ∧
        mem'.vertices[vertexPointer + j.val]? = some v := by
  obtain ⟨mem', hcall, hw⟩ := update_writes npLolSincosf mem vertexPointer indexPointer 0
    hcap hdef
  refine ⟨mem', fun _ => hcall, fun j => ?_⟩
  obtain ⟨i, hi, hslot⟩ := hw j
  rw [vertexAt_of_cornerIndex npLolSincosf mem.drawInfo j i hi] at hslot ⊢
  exact ⟨_, rfl, hslot⟩

/-- C9 (amended) with the pointer at slot 1 of a six-slot buffer. -/
theorem writes_at_pointer_witness :
    1 + 4 ≤ (memoryOf turnedInfo 6).vertices.length ∧ CornersDefined turnedInfo ∧
    ∃ mem', (∀ vertexStartOffset : Int,
        UpdateBufferValuesFromElementInfo sincosStub (memoryOf turnedInfo 6) 1 0
          vertexStartOffset = some mem') ∧
      ∀ j : Fin 4, ∃ v, vertexAt sincosStub turnedInfo j = some v ∧
        mem'.vertices[1 + j.val]? = some v :=
  ⟨by decide, by decide,
    writes_at_pointer sincosStub (memoryOf turnedInfo 6) 1 0 (by decide) (by decide)⟩

/-- C10. A defined call returns a memory with the same draw info, the same index buffer,
a vertex buffer of the same length, and the same content in every vertex slot outside the
four slots `vertexPointer .. vertexPointer + 3`. -/
theorem frame_of_call (npLolSincosf : α → α × α) (mem : Memory α)
    (vertexPointer indexPointer : Nat) (vertexStartOffset : Int)
    (hcap : vertexPointer + 4 ≤ mem.vertices.length) (hdef : CornersDefined mem.drawInfo) :
    ∃ mem', UpdateBufferValuesFromElementInfo npLolSincosf mem vertexPointer indexPointer
        vertexStartOffset = some mem' ∧
      mem'.drawInfo = mem.drawInfo ∧ mem'.indices = mem.indices ∧
      mem'.vertices.length = mem.vertices.length ∧
      ∀ i, i < vertexPointer ∨ vertexPointer + 4 ≤ i → mem'.vertices[i]? = mem.vertices[i]? := by
  obtain ⟨mem', hcall⟩ := update_defined npLolSincosf mem vertexPointer indexPointer
    vertexStartOffset hcap hdef
  obtain ⟨hd, hi, hl, _, hout, _⟩ := update_some _ _ _ _ _ _ hcall
  exact ⟨mem', hcall, hd, hi, hl, hout⟩

/-- C10 with the pointer at slot 1 of a six-slot buffer: slots 0 and 5 are untouched. -/
theorem frame_of_call_witness :
    1 + 4 ≤ (memoryOf turnedInfo 6).vertices.length ∧ CornersDefined turnedInfo ∧
    ∃ mem', UpdateBufferValuesFromElementInfo sincosStub (memoryOf turnedInfo 6) 1 0 0
        = some mem' ∧
      mem'.drawInfo = turnedInfo ∧ mem'.indices = [0, 1, 2] ∧
      mem'.vertices.length = 6 ∧
      ∀ i, i < 1 ∨ 1 + 4 ≤ i → mem'.vertices[i]? = (List.replicate 6 blankVertex)[i]? :=
  ⟨by decide, by decide,
    frame_of_call sincosStub (memoryOf turnedInfo 6) 1 0 0 (by decide) (by decide)⟩

/-- C11. Two-run independence. Take a defined call on `mem`. A second draw info that agrees
with it on `Destination`, on the normalized origin, on `Rotation` and on `Depth` (and whose
call is defined) gets the same four positions, whatever its texture size, source position,
flags, colours and swizzle. A third draw info that agrees with the first on `Source`,
`TextureSize`, `SpriteEffects` and `Orientation` has a defined call too and gets the same
four texture coordinates, whatever its destination, origin, rotation, depth and
sine/cosine routine. -/
theorem two_run_independence (sincosA sincosB : α → α × α) (mem memP memT : Memory α)
    (vertexPointer indexPointer : Nat) (vertexStartOffset : Int)
    (hcap : vertexPointer + 4 ≤ mem.vertices.length)
    (hcapP : vertexPointer + 4 ≤ memP.vertices.length)
    (hcapT : vertexPointer + 4 ≤ memT.vertices.length)
    (hdef : CornersDefined mem.drawInfo) (hdefP : CornersDefined memP.drawInfo)
    (hD : memP.drawInfo.Destination = mem.drawInfo.Destination)
    (hOx : memP.drawInfo.Origin.X / max (1 / 1000000) memP.drawInfo.Source.width
      = mem.drawInfo.Origin.X / max (1 / 1000000) mem.drawInfo.Source.width)
    (hOy : memP.drawInfo.Origin.Y / max (1 / 1000000) memP.drawInfo.Source.height
      = mem.drawInfo.Origin.Y / max (1 / 1000000) mem.drawInfo.Source.height)
    (hR : memP.drawInfo.Rotation = mem.drawInfo.Rotation)
    (hZ : memP.drawInfo.Depth = mem.drawInfo.Depth)
    (hS : memT.drawInfo.Source = mem.drawInfo.Source)
    (hT : memT.drawInfo.TextureSize = mem.drawInfo.TextureSize)
    (hE : memT.drawInfo.SpriteEffects = mem.drawInfo.SpriteEffects)
    (hO : memT.drawInfo.Orientation = mem.drawInfo.Orientation) :
    ∃ mem' memP' memT',
      UpdateBufferValuesFromElementInfo sincosA mem vertexPointer indexPointer
        vertexStartOffset = some mem' ∧
      UpdateBufferValuesFromElementInfo sincosA memP vertexPointer indexPointer
        vertexStartOffset = some memP' ∧
      UpdateBufferValuesFromElementInfo sincosB memT vertexPointer indexPointer
        vertexStartOffset = some memT' ∧
      (∀ j : Fin 4, ∃ v w, mem'.vertices[vertexPointer + j.val]? = some v ∧
        memP'.vertices[vertexPointer + j.val]? = some w ∧ w.Position = v.Position) ∧
      (∀ j : Fin 4, ∃ v w, mem'.vertices[vertexPointer + j.val]? = some v ∧
        memT'.vertices[vertexPointer + j.val]? = some w ∧
        w.TextureCoordinate = v.TextureCoordinate) := by
  have hdefT : CornersDefined memT.drawInfo := fun j => by rw [hE, hO]; exact hdef j
  obtain ⟨mem', f, hc, hf, hs⟩ := update_writes_explicit sincosA mem vertexPointer
    indexPointer vertexStartOffset hcap hdef
  obtain ⟨memP', fP, hcP, _, hsP⟩ := update_writes_explicit sincosA memP vertexPointer
    indexPointer vertexStartOffset hcapP hdefP
  obtain ⟨memT', fT, hcT, hfT, hsT⟩ := update_writes_explicit sincosB memT vertexPointer
    indexPointer vertexStartOffset hcapT hdefT
  have hno : normalizedOrigin memP.drawInfo = normalizedOrigin mem.drawInfo := by
    unfold normalizedOrigin epsilon
    rw [hOx, hOy]
  have hfe : ∀ j, fT j = f j := fun j =>
    Option.some.inj ((hfT j).symm.trans (by rw [hE, hO]; exact hf j))
  refine ⟨mem', memP', memT', hc, hcP, hcT, ?_, ?_⟩
  · intro j
    refine ⟨_, _, hs j, hsP j, ?_⟩
    simp only [hD, hno, hR, hZ]
  · intro j
    refine ⟨_, _, hs j, hsT j, ?_⟩
    simp only [hS, hT, hfe]

/-- C11 on three concrete sprites: `repaintedInfo` is placed like `turnedInfo`, `movedInfo`
is textured like `turnedInfo`. -/
theorem two_run_independence_witness :
    (1 + 4 ≤ (memoryOf turnedInfo 6).vertices.length ∧
      1 + 4 ≤ (memoryOf repaintedInfo 5).vertices.length ∧
      1 + 4 ≤ (memoryOf movedInfo 7).vertices.length ∧
      CornersDefined turnedInfo ∧ CornersDefined repaintedInfo) ∧
    (repaintedInfo.Destination = turnedInfo.Destination ∧
      repaintedInfo.Origin.X / max (1 / 1000000) repaintedInfo.Source.width
        = turnedInfo.Origin.X / max (1 / 1000000) turnedInfo.Source.width ∧
      repaintedInfo.Origin.Y / max (1 / 1000000) repaintedInfo.Source.height
        = turnedInfo.Origin.Y / max (1 / 1000000) turnedInfo.Source.height ∧
      repaintedInfo.Rotation = turnedInfo.Rotation ∧ repaintedInfo.Depth = turnedInfo.Depth) ∧
    (movedInfo.Source = turnedInfo.Source ∧ movedInfo.TextureSize = turnedInfo.TextureSize ∧
      movedInfo.SpriteEffects = turnedInfo.SpriteEffects ∧
      movedInfo.Orientation = turnedInfo.Orientation) ∧
    ∃ mem' memP' memT',
      UpdateBufferValuesFromElementInfo sincosStub (memoryOf turnedInfo 6) 1 0 0
        = some mem' ∧
      UpdateBufferValuesFromElementInfo sincosStub (memoryOf repaintedInfo 5) 1 0 0
        = some memP' ∧
      UpdateBufferValuesFromElementInfo (fun _ => ((0 : ℚ), (1 : ℚ))) (memoryOf movedInfo 7)
        1 0 0 = some memT' ∧
      (∀ j : Fin 4, ∃ v w, mem'.vertices[1 + j.val]? = some v ∧
        memP'.vertices[1 + j.val]? = some w ∧ w.Position = v.Position) ∧
      (∀ j : Fin 4, ∃ v w, mem'.vertices[1 + j.val]? = some v ∧
        memT'.vertices[1 + j.val]? = some w ∧
        w.TextureCoordinate = v.TextureCoordinate) := by
  have hOx : repaintedInfo.Origin.X / max (1 / 1000000) repaintedInfo.Source.width
      = turnedInfo.Origin.X / max (1 / 1000000) turnedInfo.Source.width := by
    norm_num [repaintedInfo, turnedInfo, scenarioInfo]
  have hOy : repaintedInfo.Origin.Y / max (1 / 1000000) repaintedInfo.Source.height
      = turnedInfo.Origin.Y / max (1 / 1000000) turnedInfo.Source.height := by
    norm_num [repaintedInfo, turnedInfo, scenarioInfo]
  exact ⟨⟨by decide, by decide, by decide, by decide, by decide⟩,
    ⟨rfl, hOx, hOy, rfl, rfl⟩, ⟨rfl, rfl, rfl, rfl⟩,
    two_run_independence sincosStub (fun _ => ((0 : ℚ), (1 : ℚ))) (memoryOf turnedInfo 6)
      (memoryOf repaintedInfo 5) (memoryOf movedInfo 7) 1 0 0 (by decide) (by decide)
      (by decide) (by decide) (by decide) rfl hOx hOy rfl rfl rfl rfl rfl rfl⟩

/-- C12. For a source rectangle with `width ≥ 1e-6` and `height ≥ 1e-6` and an origin with
`0 ≤ Origin.X ≤ Source.width`, `0 ≤ Origin.Y ≤ Source.height`, the normalized origin is
`(Origin.X / Source.width, Origin.Y / Source.height)` and lies in `[0,1] x [0,1]`; and then
a defined call with `Rotation = 0` puts vertex 0 at
`Destination.(x,y) - normalizedOrigin * Destination.size`, with `Z = Depth`, `W = 1`. -/
theorem normalized_origin_in_unit_square (npLolSincosf : α → α × α) (mem : Memory α)
    (vertexPointer indexPointer : Nat) (vertexStartOffset : Int)
    (hw : 1 / 1000000 ≤ mem.drawInfo.Source.width)
    (hh : 1 / 1000000 ≤ mem.drawInfo.Source.height)
    (hx0 : 0 ≤ mem.drawInfo.Origin.X) (hx1 : mem.drawInfo.Origin.X ≤ mem.drawInfo.Source.width)
    (hy0 : 0 ≤ mem.drawInfo.Origin.Y)
    (hy1 : mem.drawInfo.Origin.Y ≤ mem.drawInfo.Source.height) :
    normalizedOrigin mem.drawInfo
      = ⟨mem.drawInfo.Origin.X / mem.drawInfo.Source.width,
          mem.drawInfo.Origin.Y / mem.drawInfo.Source.height⟩ ∧
    (0 ≤ (normalizedOrigin mem.drawInfo).X ∧ (normalizedOrigin mem.drawInfo).X ≤ 1 ∧
      0 ≤ (normalizedOrigin mem.drawInfo).Y ∧ (normalizedOrigin mem.drawInfo).Y ≤ 1) ∧
    (mem.drawInfo.Rotation = 0 → vertexPointer + 4 ≤ mem.vertices.length →
      CornersDefined mem.drawInfo →
      ∃ mem' v, UpdateBufferValuesFromElementInfo npLolSincosf mem vertexPointer
          indexPointer vertexStartOffset = some mem' ∧
        mem'.vertices[vertexPointer + 0]? = some v ∧
        v.Position.X = mem.drawInfo.Destination.x
          - mem.drawInfo.Origin.X / mem.drawInfo.Source.width * mem.drawInfo.Destination.width ∧
        v.Position.Y = mem.drawInfo.Destination.y
          - mem.drawInfo.Origin.Y / mem.drawInfo.Source.height
            * mem.drawInfo.Destination.height ∧
        v.Position.Z = mem.drawInfo.Depth ∧ v.Position.W = 1) := by
  have hpw : (0 : α) < mem.drawInfo.Source.width := lt_of_lt_of_le epsilon_pos hw
  have hph : (0 : α) < mem.drawInfo.Source.height := lt_of_lt_of_le epsilon_pos hh
  have hno : normalizedOrigin mem.drawInfo
      = ⟨mem.drawInfo.Origin.X / mem.drawInfo.Source.width,
          mem.drawInfo.Origin.Y / mem.drawInfo.Source.height⟩ := by
    unfold normalizedOrigin epsilon
    rw [max_eq_right hw, max_eq_right hh]
  refine ⟨hno, ?_, ?_⟩
  · rw [hno]
    exact ⟨div_nonneg hx0 hpw.le, (div_le_one hpw).mpr hx1, div_nonneg hy0 hph.le,
      (div_le_one hph).mpr hy1⟩
  · intro hrot hcap hdef
    obtain ⟨mem', f, hcall, _, hs⟩ := update_writes_explicit npLolSincosf mem vertexPointer
      indexPointer vertexStartOffset hcap hdef
    have hbasis : rotationBasis npLolSincosf mem.drawInfo.Rotation = ⟨1, 0⟩ :=
      rotationBasis_of_abs_le _ _ (by rw [hrot, abs_zero]; exact epsilon_pos.le)
    refine ⟨mem', _, hcall, hs 0, ?_, ?_, rfl, rfl⟩
    · simp only [hbasis, hno, cornerOffsets]
      ring
    · simp only [hbasis, hno, cornerOffsets]
      ring

/-- C12 at the centred scenario. -/
theorem normalized_origin_in_unit_square_witness :
    ((1 : ℚ) / 1000000 ≤ centredInfo.Source.width ∧
      (1 : ℚ) / 1000000 ≤ centredInfo.Source.height ∧
      0 ≤ centredInfo.Origin.X ∧ centredInfo.Origin.X ≤ centredInfo.Source.width ∧
      0 ≤ centredInfo.Origin.Y ∧ centredInfo.Origin.Y ≤ centredInfo.Source.height) ∧
    (centredInfo.Rotation = 0 ∧ 0 + 4 ≤ (memoryOf centredInfo 4).vertices.length ∧
      CornersDefined centredInfo) ∧
    normalizedOrigin centredInfo = ⟨25 / 50, 25 / 50⟩ ∧
    (∃ mem' v, UpdateBufferValuesFromElementInfo sincosStub (memoryOf centredInfo 4) 0 0 0
        = some mem' ∧
      mem'.vertices[0 + 0]? = some v ∧
      v.Position.X = 10 - 25 / 50 * 20 ∧ v.Position.Y = 10 - 25 / 50 * 20 ∧
      v.Position.Z = 7 ∧ v.Position.W = 1) ∧
    (UpdateBufferValuesFromElementInfo sincosStub (memoryOf centredInfo 4) 0 0 0).map
        (fun m => m.vertices.map
          (fun v => (v.Position.X, v.Position.Y, v.Position.Z, v.Position.W)))
      = some [(0, 0, 7, 1), (20, 0, 7, 1), (20, 20, 7, 1), (0, 20, 7, 1)] := by
  have hw : (1 : ℚ) / 1000000 ≤ centredInfo.Source.width := by
    norm_num [centredInfo, scenarioInfo]
  have hh : (1 : ℚ) / 1000000 ≤ centredInfo.Source.height := by
    norm_num [centredInfo, scenarioInfo]
  have hx0 : 0 ≤ centredInfo.Origin.X := by norm_num [centredInfo]
  have hx1 : centredInfo.Origin.X ≤ centredInfo.Source.width := by
    norm_num [centredInfo, scenarioInfo]
  have hy0 : 0 ≤ centredInfo.Origin.Y := by norm_num [centredInfo]
  have hy1 : centredInfo.Origin.Y ≤ centredInfo.Source.height := by
    norm_num [centredInfo, scenarioInfo]
  have h := normalized_origin_in_unit_square sincosStub (memoryOf centredInfo 4) 0 0 0
    hw hh hx0 hx1 hy0 hy1
  refine ⟨⟨hw, hh, hx0, hx1, hy0, hy1⟩, ⟨rfl, by decide, by decide⟩, h.1,
    h.2.2 rfl (by decide) (by decide), ?_⟩
  have h0 : cornerIndex 0 0 0 = some 0 := by decide
  have h1 : cornerIndex 0 0 1 = some 1 := by decide
  have h2 : cornerIndex 0 0 2 = some 2 := by decide
  have h3 : cornerIndex 0 0 3 = some 3 := by decide
  simp [UpdateBufferValuesFromElementInfo, forLoop, loopBody, storeVertex, memoryOf,
    centredInfo, scenarioInfo, rotationBasis, normalizedOrigin, cornerOffsets, epsilon,
    h0, h1, h2, h3]
  norm_num

/-- C14. With the true sine and cosine, a defined call with `Rotation = 2π` writes exactly
the four positions of the call with `Rotation = 0`. With any routine whose sine at `2π` is
within `δ` of 0 and whose cosine is within `δ` of 1, each written `X` and `Y` differs from
the zero-rotation one by at most `δ (|X0 - Destination.x| + |Y0 - Destination.y|)`, and `Z`
and `W` are equal. -/
theorem full_turn_positions (mem : Memory ℝ)
    (vertexPointer indexPointer : Nat) (vertexStartOffset : Int)
    (hrot : mem.drawInfo.Rotation = 2 * Real.pi)
    (hcap : vertexPointer + 4 ≤ mem.vertices.length) (hdef : CornersDefined mem.drawInfo) :
    ∃ mem0,
      UpdateBufferValuesFromElementInfo (fun r => (Real.sin r, Real.cos r))
        { mem with drawInfo := { mem.drawInfo with Rotation := 0 } }
        vertexPointer indexPointer vertexStartOffset = some mem0 ∧
      (∃ memT,
        UpdateBufferValuesFromElementInfo (fun r => (Real.sin r, Real.cos r)) mem
          vertexPointer indexPointer vertexStartOffset = some memT ∧
        ∀ j : Fin 4, ∃ v w, memT.vertices[vertexPointer + j.val]? = some v ∧
          mem0.vertices[vertexPointer + j.val]? = some w ∧ v.Position = w.Position) ∧
      (∀ (npLolSincosf : ℝ → ℝ × ℝ) (δ : ℝ),
        |(npLolSincosf (2 * Real.pi)).1| ≤ δ → |(npLolSincosf (2 * Real.pi)).2 - 1| ≤ δ →
        ∃ memF,
          UpdateBufferValuesFromElementInfo npLolSincosf mem
            vertexPointer indexPointer vertexStartOffset = some memF ∧
          ∀ j : Fin 4, ∃ v w, memF.vertices[vertexPointer + j.val]? = some v ∧
            mem0.vertices[vertexPointer + j.val]? = some w ∧
            |v.Position.X - w.Position.X|
              ≤ δ * (|w.Position.X - mem.drawInfo.Destination.x|
                  + |w.Position.Y - mem.drawInfo.Destination.y|) ∧
            |v.Position.Y - w.Position.Y|
              ≤ δ * (|w.Position.X - mem.drawInfo.Destination.x|
                  + |w.Position.Y - mem.drawInfo.Destination.y|) ∧
            v.Position.Z = w.Position.Z ∧ v.Position.W = w.Position.W) := by
  have hbig : (epsilon : ℝ) < |mem.drawInfo.Rotation| := by
    rw [hrot, abs_of_pos (by positivity)]
    have := Real.pi_gt_three
    unfold epsilon
    linarith
  have hb0 : ∀ g : ℝ → ℝ × ℝ, rotationBasis g (0 : ℝ) = ⟨1, 0⟩ := fun g =>
    rotationBasis_of_abs_le _ _ (by rw [abs_zero]; exact epsilon_pos.le)
  have hbF : ∀ g : ℝ → ℝ × ℝ, rotationBasis g mem.drawInfo.Rotation
      = ⟨(g (2 * Real.pi)).2, (g (2 * Real.pi)).1⟩ := fun g => by
    rw [rotationBasis_of_lt_abs _ _ hbig, hrot]
  obtain ⟨mem0, f0, hc0, _, hs0⟩ := update_writes_explicit (fun r => (Real.sin r, Real.cos r))
    { mem with drawInfo := { mem.drawInfo with Rotation := 0 } }
    vertexPointer indexPointer vertexStartOffset hcap hdef
  have hno : normalizedOrigin ({ mem.drawInfo with Rotation := 0 } : SpriteDrawInfo ℝ)
      = normalizedOrigin mem.drawInfo := rfl
  refine ⟨mem0, hc0, ?_, ?_⟩
  · obtain ⟨memT, fT, hcT, _, hsT⟩ := update_writes_explicit
      (fun r => (Real.sin r, Real.cos r)) mem vertexPointer indexPointer vertexStartOffset
      hcap hdef
    refine ⟨memT, hcT, fun j => ⟨_, _, hsT j, hs0 j, ?_⟩⟩
    simp only [hbF, hb0, hno, Real.sin_two_pi, Real.cos_two_pi]
  · intro g δ hs hc
    obtain ⟨memF, fF, hcF, _, hsF⟩ := update_writes_explicit g mem vertexPointer
      indexPointer vertexStartOffset hcap hdef
    refine ⟨memF, hcF, fun j => ⟨_, _, hsF j, hs0 j, ?_⟩⟩
    obtain ⟨h1, h2⟩ := rotation_error_bound
      (((cornerOffsets j).X - (normalizedOrigin mem.drawInfo).X) * mem.drawInfo.Destination.width)
      (((cornerOffsets j).Y - (normalizedOrigin mem.drawInfo).Y) * mem.drawInfo.Destination.height)
      (g (2 * Real.pi)).2 (g (2 * Real.pi)).1 δ hs hc
    refine ⟨?_, ?_, rfl, rfl⟩
    · simp only [hbF, hb0, hno]
      convert h1 using 2 <;> ring_nf
    · simp only [hbF, hb0, hno]
      convert h2 using 2 <;> ring_nf

/-- C14 at the scenario with `Rotation = 2π`. -/
theorem full_turn_positions_witness :
    (memoryWith (2 * Real.pi) 4).drawInfo.Rotation = 2 * Real.pi ∧
    0 + 4 ≤ (memoryWith (2 * Real.pi) 4).vertices.length ∧
    CornersDefined (memoryWith (2 * Real.pi) 4).drawInfo ∧
    ∃ mem0,
      UpdateBufferValuesFromElementInfo (fun r => (Real.sin r, Real.cos r))
        (memoryWith 0 4) 0 0 0 = some mem0 ∧
      (∃ memT,
        UpdateBufferValuesFromElementInfo (fun r => (Real.sin r, Real.cos r))
          (memoryWith (2 * Real.pi) 4) 0 0 0 = some memT ∧
        ∀ j : Fin 4, ∃ v w, memT.vertices[0 + j.val]? = some v ∧
          mem0.vertices[0 + j.val]? = some w ∧ v.Position = w.Position) ∧
      (∀ (npLolSincosf : ℝ → ℝ × ℝ) (δ : ℝ),
        |(npLolSincosf (2 * Real.pi)).1| ≤ δ → |(npLolSincosf (2 * Real.pi)).2 - 1| ≤ δ →
        ∃ memF,
          UpdateBufferValuesFromElementInfo npLolSincosf (memoryWith (2 * Real.pi) 4)
            0 0 0 = some memF ∧
          ∀ j : Fin 4, ∃ v w, memF.vertices[0 + j.val]? = some v ∧
            mem0.vertices[0 + j.val]? = some w ∧
            |v.Position.X - w.Position.X|
              ≤ δ * (|w.Position.X - 10| + |w.Position.Y - 10|) ∧
            |v.Position.Y - w.Position.Y|
              ≤ δ * (|w.Position.X - 10| + |w.Position.Y - 10|) ∧
            v.Position.Z = w.Position.Z ∧ v.Position.W = w.Position.W) :=
  ⟨rfl, by decide, by decide,
    full_turn_positions (memoryWith (2 * Real.pi) 4) 0 0 0 rfl (by decide) (by decide)⟩

/-- C15. For non-negative `SpriteEffects = e` and `Orientation = o` such that
`(j ^ e) + o` stays within a 32-bit `int` for `j = 0..3`, the table subscript of every
iteration is defined and equals `((j ^ e) + o) mod 4`, and `j ↦ ((j ^ e) + o) mod 4` is a
bijection of `{0,1,2,3}`: every lookup is in bounds and each corner of the source
rectangle goes to exactly one vertex. -/
theorem subscript_permutation (e o : Nat)
    (hrange : ∀ j : Fin 4, (j.val ^^^ e) + o ≤ 2147483647) :
    ∃ σ : Fin 4 → Fin 4, Function.Bijective σ ∧
      ∀ j : Fin 4, cornerIndex (e : Int) (o : Int) j = some (σ j) ∧
        (σ j).val = ((j.val ^^^ e) + o) % 4 := by
  refine ⟨fun j => ⟨((j.val ^^^ e) + o) % 4, Nat.mod_lt _ (by decide)⟩, ?_, ?_⟩
  · rw [← Finite.injective_iff_bijective]
    intro j k hjk
    exact subscript_injective e o j k (by simpa using congrArg Fin.val hjk)
  · intro j
    exact ⟨cornerIndex_natCast e o j (hrange j), rfl⟩

/-- C15 at `SpriteEffects = 1`, `Orientation = 1`. -/
theorem subscript_permutation_witness :
    (∀ j : Fin 4, (j.val ^^^ 1) + 1 ≤ 2147483647) ∧
    ∃ σ : Fin 4 → Fin 4, Function.Bijective σ ∧
      ∀ j : Fin 4, cornerIndex ((1 : Nat) : Int) ((1 : Nat) : Int) j = some (σ j) ∧
        (σ j).val = ((j.val ^^^ 1) + 1) % 4 :=
  ⟨by decide, subscript_permutation 1 1 (by decide)⟩

/-- C16. With `SpriteEffects = 0`, `Orientation = -1` and `j = 0`, the subscript
`((j ^ SpriteEffects) + Orientation) % 4` is `-1` under C's truncating remainder, which is
outside the four-entry table: the lookup is undefined and so is the call, whereas the same
draw info with `Orientation = 0` has all its subscripts defined. -/
theorem negative_orientation_undefined :
    negativeInfo.SpriteEffects = 0 ∧ negativeInfo.Orientation = -1 ∧
    addInt (Int.xor (((0 : Fin 4).val : Nat) : Int) negativeInfo.SpriteEffects)
      negativeInfo.Orientation = some (-1) ∧
    Int.tmod (-1) 4 = -1 ∧
    cornerIndex negativeInfo.SpriteEffects negativeInfo.Orientation 0 = none ∧
    ¬ CornersDefined negativeInfo ∧
    UpdateBufferValuesFromElementInfo sincosStub (memoryOf negativeInfo 4) 0 0 0 = none ∧
    CornersDefined ({ negativeInfo with Orientation := 0 } : SpriteDrawInfo ℚ) := by
  decide

/-- C17, refuted as stated: in the `float` arithmetic of the routine the identity is not
exact. For `movedInfo` (destination (-3, 8, 64, 16), source 50 x 50, origin (10, 40), no
rotation) the routine computes the normalized origin `(0.2f, 0.8f)` and the four positions
listed; their bilinear combination at that origin has `X = -2.99999980...`, not `-3`, and
at the unrounded origin `(1/5, 4/5)` its `Y` differs from `8`. -/
theorem anchor_float_counterexample :
    ∃ (o P0 P1 P2 P3 : Vector2 ℚ),
      o = normalizedOriginFloat movedInfo ∧
      P0 = positionFloat movedInfo (rotationBasis sincosStub movedInfo.Rotation) o 0 ∧
      P1 = positionFloat movedInfo (rotationBasis sincosStub movedInfo.Rotation) o 1 ∧
      P2 = positionFloat movedInfo (rotationBasis sincosStub movedInfo.Rotation) o 2 ∧
      P3 = positionFloat movedInfo (rotationBasis sincosStub movedInfo.Rotation) o 3 ∧
      o = ⟨13421773 / 67108864, 13421773 / 16777216⟩ ∧
      P0 = ⟨-(16567501 / 1048576), -(5033165 / 1048576)⟩ ∧
      P1 = ⟨12635341 / 262144, -(5033165 / 1048576)⟩ ∧
      P2 = ⟨12635341 / 262144, 11744051 / 1048576⟩ ∧
      P3 = ⟨-(16567501 / 1048576), 11744051 / 1048576⟩ ∧
      (1 - o.X) * (1 - o.Y) * P0.X + o.X * (1 - o.Y) * P1.X + o.X * o.Y * P2.X
          + (1 - o.X) * o.Y * P3.X
        = -(211106219111219 / 70368744177664) ∧
      (1 - o.X) * (1 - o.Y) * P0.X + o.X * (1 - o.Y) * P1.X + o.X * o.Y * P2.X
          + (1 - o.X) * o.Y * P3.X
        ≠ movedInfo.Destination.x ∧
      (1 - 1 / 5) * (1 - 4 / 5) * P0.Y + 1 / 5 * (1 - 4 / 5) * P1.Y + 1 / 5 * (4 / 5) * P2.Y
          + (1 - 1 / 5) * (4 / 5) * P3.Y
        ≠ movedInfo.Destination.y := by
  obtain ⟨ho, hb, h0, h1, h2, h3⟩ := float_movedInfo
  refine ⟨_, _, _, _, _, rfl, rfl, rfl, rfl, rfl, ho, ?_, ?_, ?_, ?_, ?_, ?_, ?_⟩
  · rw [hb, ho, h0]
  · rw [hb, ho, h1]
  · rw [hb, ho, h2]
  · rw [hb, ho, h3]
  · rw [hb, ho, h0, h1, h2, h3]
    norm_num
  · rw [hb, ho, h0, h1, h2, h3]
    norm_num [movedInfo]
  · rw [hb, ho, h0, h1, h2, h3]
    norm_num [movedInfo]

/-- C17, amended. Anchor invariance in exact arithmetic (the operations of lines 30-49
taken in a field, without `float` rounding). In a defined call, whatever the rotation, the bilinear
combination `(1-ox)(1-oy) P0 + ox (1-oy) P1 + ox oy P2 + (1-ox) oy P3` of the four written
positions, taken at the normalized origin `(ox, oy)`, is exactly `Destination.(x,y)`; in
particular with `Origin = (0,0)` vertex 0 is at `Destination.(x,y)`. -/
theorem anchor_invariance (npLolSincosf : α → α × α) (mem : Memory α)
    (vertexPointer indexPointer : Nat) (vertexStartOffset : Int)
    (hcap : vertexPointer + 4 ≤ mem.vertices.length) (hdef : CornersDefined mem.drawInfo) :
    ∃ mem' v0 v1 v2 v3,
      UpdateBufferValuesFromElementInfo npLolSincosf mem vertexPointer indexPointer
        vertexStartOffset = some mem' ∧
      mem'.vertices[vertexPointer + 0]? = some v0 ∧
      mem'.vertices[vertexPointer + 1]? = some v1 ∧
      mem'.vertices[vertexPointer + 2]? = some v2 ∧
      mem'.vertices[vertexPointer + 3]? = some v3 ∧
      (∀ ox oy : α,
        ox = mem.drawInfo.Origin.X / max (1 / 1000000) mem.drawInfo.Source.width →
        oy = mem.drawInfo.Origin.Y / max (1 / 1000000) mem.drawInfo.Source.height →
        (1 - ox) * (1 - oy) * v0.Position.X + ox * (1 - oy) * v1.Position.X
            + ox * oy * v2.Position.X + (1 - ox) * oy * v3.Position.X
          = mem.drawInfo.Destination.x ∧
        (1 - ox) * (1 - oy) * v0.Position.Y + ox * (1 - oy) * v1.Position.Y
            + ox * oy * v2.Position.Y + (1 - ox) * oy * v3.Position.Y
          = mem.drawInfo.Destination.y) ∧
      (mem.drawInfo.Origin = ⟨0, 0⟩ →
        v0.Position.X = mem.drawInfo.Destination.x ∧
        v0.Position.Y = mem.drawInfo.Destination.y) := by
  obtain ⟨mem', f, hcall, _, hs⟩ := update_writes_explicit npLolSincosf mem vertexPointer
    indexPointer vertexStartOffset hcap hdef
  refine ⟨mem', _, _, _, _, hcall, hs 0, hs 1, hs 2, hs 3, ?_, ?_⟩
  · intro ox oy hox hoy
    subst hox hoy
    simp only [normalizedOrigin, epsilon, cornerOffsets]
    constructor <;> ring
  · intro ho
    simp [normalizedOrigin, ho, cornerOffsets]

/-- C17 (amended) at the rotated sprite anchored at its centre: the centre of the written quad is the
destination point (10, 10). -/
theorem anchor_invariance_witness :
    1 + 4 ≤ (memoryOf turnedInfo 6).vertices.length ∧ CornersDefined turnedInfo ∧
    ∃ mem' v0 v1 v2 v3,
      UpdateBufferValuesFromElementInfo sincosStub (memoryOf turnedInfo 6) 1 0 0 = some mem' ∧
      mem'.vertices[1 + 0]? = some v0 ∧ mem'.vertices[1 + 1]? = some v1 ∧
      mem'.vertices[1 + 2]? = some v2 ∧ mem'.vertices[1 + 3]? = some v3 ∧
      (∀ ox oy : ℚ,
        ox = 25 / max (1 / 1000000) 50 → oy = 25 / max (1 / 1000000) 50 →
        (1 - ox) * (1 - oy) * v0.Position.X + ox * (1 - oy) * v1.Position.X
            + ox * oy * v2.Position.X + (1 - ox) * oy * v3.Position.X = 10 ∧
        (1 - ox) * (1 - oy) * v0.Position.Y + ox * (1 - oy) * v1.Position.Y
            + ox * oy * v2.Position.Y + (1 - ox) * oy * v3.Position.Y = 10) ∧
      (turnedInfo.Origin = ⟨0, 0⟩ → v0.Position.X = 10 ∧ v0.Position.Y = 10) :=
  ⟨by decide, by decide,
    anchor_invariance sincosStub (memoryOf turnedInfo 6) 1 0 0 (by decide) (by decide)⟩

/-- C18, refuted as stated: in the `float` arithmetic of the routine the edge length is
not exact. For `movedInfo` the rotation vector is `(1, 0)`, of unit length, yet the written
positions give `|P1 - P0|^2 = 4096.000122...`, not `Destination.width^2 = 4096`. -/
theorem rigid_float_counterexample :
    ∃ (P0 P1 : Vector2 ℚ),
      P0 = positionFloat movedInfo (rotationBasis sincosStub movedInfo.Rotation)
        (normalizedOriginFloat movedInfo) 0 ∧
      P1 = positionFloat movedInfo (rotationBasis sincosStub movedInfo.Rotation)
        (normalizedOriginFloat movedInfo) 1 ∧
      rotationBasis sincosStub movedInfo.Rotation = ⟨1, 0⟩ ∧
      (1 : ℚ) ^ 2 + 0 ^ 2 = 1 ∧
      P0 = ⟨-(16567501 / 1048576), -(5033165 / 1048576)⟩ ∧
      P1 = ⟨12635341 / 262144, -(5033165 / 1048576)⟩ ∧
      (P1.X - P0.X) ^ 2 + (P1.Y - P0.Y) ^ 2 = 4503599761588225 / 1099511627776 ∧
      (P1.X - P0.X) ^ 2 + (P1.Y - P0.Y) ^ 2 ≠ movedInfo.Destination.width ^ 2 := by
  obtain ⟨ho, hb, h0, h1, _, _⟩ := float_movedInfo
  refine ⟨_, _, rfl, rfl, hb, by norm_num, ?_, ?_, ?_, ?_⟩
  · rw [hb, ho, h0]
  · rw [hb, ho, h1]
  · rw [hb, ho, h0, h1]
    norm_num
  · rw [hb, ho, h0, h1]
    norm_num [movedInfo]

/-- C18, amended. In exact arithmetic (the operations of lines 30-49 taken in a field,
without `float` rounding), in a defined call the four written positions form a parallelogram,
`P0 + P2 = P1 + P3`, whatever the rotation vector; and when the rotation vector
`(cosR, sinR)` satisfies `cosR^2 + sinR^2 = 1`, the edges `P1 - P0` and `P3 - P0` have
squared lengths `Destination.width^2` and `Destination.height^2` and dot product 0. -/
theorem rigid_quad (npLolSincosf : α → α × α) (mem : Memory α)
    (vertexPointer indexPointer : Nat) (vertexStartOffset : Int)
    (hcap : vertexPointer + 4 ≤ mem.vertices.length) (hdef : CornersDefined mem.drawInfo) :
    ∃ mem' v0 v1 v2 v3,
      UpdateBufferValuesFromElementInfo npLolSincosf mem vertexPointer indexPointer
        vertexStartOffset = some mem' ∧
      mem'.vertices[vertexPointer + 0]? = some v0 ∧
      mem'.vertices[vertexPointer + 1]? = some v1 ∧
      mem'.vertices[vertexPointer + 2]? = some v2 ∧
      mem'.vertices[vertexPointer + 3]? = some v3 ∧
      v0.Position.X + v2.Position.X = v1.Position.X + v3.Position.X ∧
      v0.Position.Y + v2.Position.Y = v1.Position.Y + v3.Position.Y ∧
      (∀ cosR sinR : α,
        rotationBasis npLolSincosf mem.drawInfo.Rotation = ⟨cosR, sinR⟩ →
        cosR ^ 2 + sinR ^ 2 = 1 →
        (v1.Position.X - v0.Position.X) ^ 2 + (v1.Position.Y - v0.Position.Y) ^ 2
          = mem.drawInfo.Destination.width ^ 2 ∧
        (v3.Position.X - v0.Position.X) ^ 2 + (v3.Position.Y - v0.Position.Y) ^ 2
          = mem.drawInfo.Destination.height ^ 2 ∧
        (v1.Position.X - v0.Position.X) * (v3.Position.X - v0.Position.X)
          + (v1.Position.Y - v0.Position.Y) * (v3.Position.Y - v0.Position.Y) = 0) := by
  obtain ⟨mem', f, hcall, _, hs⟩ := update_writes_explicit npLolSincosf mem vertexPointer
    indexPointer vertexStartOffset hcap hdef
  refine ⟨mem', _, _, _, _, hcall, hs 0, hs 1, hs 2, hs 3, ?_, ?_, ?_⟩
  · simp only [cornerOffsets]
    ring
  · simp only [cornerOffsets]
    ring
  · intro cosR sinR hb hunit
    simp only [hb, cornerOffsets]
    refine ⟨?_, ?_, ?_⟩
    · linear_combination mem.drawInfo.Destination.width ^ 2 * hunit
    · linear_combination mem.drawInfo.Destination.height ^ 2 * hunit
    · ring

/-- C18 (amended) at the rotated sprite, whose rotation vector `(4/5, 3/5)` has unit length: the
quad is a 20 by 20 square. -/
theorem rigid_quad_witness :
    1 + 4 ≤ (memoryOf turnedInfo 6).vertices.length ∧ CornersDefined turnedInfo ∧
    rotationBasis sincosStub turnedInfo.Rotation = ⟨4 / 5, 3 / 5⟩ ∧
    ((4 : ℚ) / 5) ^ 2 + (3 / 5) ^ 2 = 1 ∧
    ∃ mem' v0 v1 v2 v3,
      UpdateBufferValuesFromElementInfo sincosStub (memoryOf turnedInfo 6) 1 0 0 = some mem' ∧
      mem'.vertices[1 + 0]? = some v0 ∧ mem'.vertices[1 + 1]? = some v1 ∧
      mem'.vertices[1 + 2]? = some v2 ∧ mem'.vertices[1 + 3]? = some v3 ∧
      v0.Position.X + v2.Position.X = v1.Position.X + v3.Position.X ∧
      v0.Position.Y + v2.Position.Y = v1.Position.Y + v3.Position.Y ∧
      (∀ cosR sinR : ℚ,
        rotationBasis sincosStub turnedInfo.Rotation = ⟨cosR, sinR⟩ →
        cosR ^ 2 + sinR ^ 2 = 1 →
        (v1.Position.X - v0.Position.X) ^ 2 + (v1.Position.Y - v0.Position.Y) ^ 2
          = 20 ^ 2 ∧
        (v3.Position.X - v0.Position.X) ^ 2 + (v3.Position.Y - v0.Position.Y) ^ 2
          = 20 ^ 2 ∧
        (v1.Position.X - v0.Position.X) * (v3.Position.X - v0.Position.X)
          + (v1.Position.Y - v0.Position.Y) * (v3.Position.Y - v0.Position.Y) = 0) := by
  have hb : rotationBasis sincosStub turnedInfo.Rotation = ⟨4 / 5, 3 / 5⟩ := by
    rw [rotationBasis_of_lt_abs]
    · rfl
    · norm_num [turnedInfo, scenarioInfo, epsilon]
  exact ⟨by decide, by decide, hb, by norm_num,
    rigid_quad sincosStub (memoryOf turnedInfo 6) 1 0 0 (by decide) (by decide)⟩

/-- C19, refuted as stated: the scenario with `Orientation = 2147483647` meets every
hypothesis of the claim (positive texture size, source rectangle inside the texture,
non-negative flags), yet for vertex 1 the addition `(1 ^ 0) + 2147483647` leaves the `int`
range, the table subscript is undefined and the call yields no texture coordinates. -/
theorem texture_range_counterexample :
    (0 < overflowInfo.TextureSize.X ∧ 0 < overflowInfo.TextureSize.Y ∧
      0 ≤ overflowInfo.Source.width ∧ 0 ≤ overflowInfo.Source.height ∧
      0 ≤ overflowInfo.Source.x ∧ 0 ≤ overflowInfo.Source.y ∧
      overflowInfo.Source.x + overflowInfo.Source.width ≤ overflowInfo.TextureSize.X ∧
      overflowInfo.Source.y + overflowInfo.Source.height ≤ overflowInfo.TextureSize.Y) ∧
    0 ≤ overflowInfo.SpriteEffects ∧ 0 ≤ overflowInfo.Orientation ∧
    overflowInfo.Orientation ≤ INT_MAX ∧
    addInt (Int.xor (((1 : Fin 4).val : Nat) : Int) overflowInfo.SpriteEffects)
      overflowInfo.Orientation = none ∧
    cornerIndex overflowInfo.SpriteEffects overflowInfo.Orientation 1 = none ∧
    8 + 4 ≤ (memoryOf overflowInfo 16).vertices.length ∧
    UpdateBufferValuesFromElementInfo sincosStub (memoryOf overflowInfo 16) 8 0 0 = none := by
  refine ⟨?_, by decide, by decide, by decide, by decide, by decide, by decide, by decide⟩
  norm_num [overflowInfo, scenarioInfo]

/-- C19, amended. With `TextureSize.X > 0`, `TextureSize.Y > 0`, a source rectangle with
non-negative `x`, `y`, `width`, `height` that lies inside the texture, and non-negative
`SpriteEffects = e` and `Orientation = o` such that `(j ^ e) + o` stays within a 32-bit
`int` for `j = 0..3`, a call on a buffer with room returns and both components of all four
texture coordinates lie in `[0, 1]`. -/
theorem texture_coordinates_in_unit_square (npLolSincosf : α → α × α) (mem : Memory α)
    (vertexPointer indexPointer : Nat) (vertexStartOffset : Int) (e o : Nat)
    (heff : mem.drawInfo.SpriteEffects = (e : Int))
    (hori : mem.drawInfo.Orientation = (o : Int))
    (hrange : ∀ j : Fin 4, (j.val ^^^ e) + o ≤ 2147483647)
    (htx : 0 < mem.drawInfo.TextureSize.X) (hty : 0 < mem.drawInfo.TextureSize.Y)
    (hsw : 0 ≤ mem.drawInfo.Source.width) (hsh : 0 ≤ mem.drawInfo.Source.height)
    (hsx : 0 ≤ mem.drawInfo.Source.x) (hsy : 0 ≤ mem.drawInfo.Source.y)
    (hfx : mem.drawInfo.Source.x + mem.drawInfo.Source.width ≤ mem.drawInfo.TextureSize.X)
    (hfy : mem.drawInfo.Source.y + mem.drawInfo.Source.height ≤ mem.drawInfo.TextureSize.Y)
    (hcap : vertexPointer + 4 ≤ mem.vertices.length) :
    ∃ mem', UpdateBufferValuesFromElementInfo npLolSincosf mem vertexPointer indexPointer
        vertexStartOffset = some mem' ∧
      ∀ j : Fin 4, ∃ v, mem'.vertices[vertexPointer + j.val]? = some v ∧
        0 ≤ v.TextureCoordinate.X ∧ v.TextureCoordinate.X ≤ 1 ∧
        0 ≤ v.TextureCoordinate.Y ∧ v.TextureCoordinate.Y ≤ 1 := by
  have hdef : CornersDefined mem.drawInfo := fun j => by
    rw [heff, hori, cornerIndex_natCast e o j (hrange j)]
    rfl
  obtain ⟨mem', f, hcall, _, hs⟩ := update_writes_explicit npLolSincosf mem vertexPointer
    indexPointer vertexStartOffset hcap hdef
  refine ⟨mem', hcall, fun j => ⟨_, hs j, ?_⟩⟩
  obtain ⟨hcx, hcy⟩ := @cornerOffsets_zero_or_one α _ (f j)
  obtain ⟨hx0, hx1⟩ := scaled_mem_unit _ _ _ _ hsx hsw hfx htx hcx
  obtain ⟨hy0, hy1⟩ := scaled_mem_unit _ _ _ _ hsy hsh hfy hty hcy
  exact ⟨hx0, hx1, hy0, hy1⟩

/-- C19 (amended) at the rotated sprite (`SpriteEffects = 1`, `Orientation = 1`), whose
source rectangle (0,0,50,50) lies inside the 100x100 texture. -/
theorem texture_coordinates_in_unit_square_witness :
    (turnedInfo.SpriteEffects = ((1 : Nat) : Int) ∧ turnedInfo.Orientation = ((1 : Nat) : Int) ∧
      ∀ j : Fin 4, (j.val ^^^ 1) + 1 ≤ 2147483647) ∧
    (0 < turnedInfo.TextureSize.X ∧ 0 < turnedInfo.TextureSize.Y ∧
      0 ≤ turnedInfo.Source.width ∧ 0 ≤ turnedInfo.Source.height ∧
      0 ≤ turnedInfo.Source.x ∧ 0 ≤ turnedInfo.Source.y ∧
      turnedInfo.Source.x + turnedInfo.Source.width ≤ turnedInfo.TextureSize.X ∧
      turnedInfo.Source.y + turnedInfo.Source.height ≤ turnedInfo.TextureSize.Y) ∧
    1 + 4 ≤ (memoryOf turnedInfo 6).vertices.length ∧
    ∃ mem', UpdateBufferValuesFromElementInfo sincosStub (memoryOf turnedInfo 6) 1 0 0
        = some mem' ∧
      ∀ j : Fin 4, ∃ v, mem'.vertices[1 + j.val]? = some v ∧
        0 ≤ v.TextureCoordinate.X ∧ v.TextureCoordinate.X ≤ 1 ∧
        0 ≤ v.TextureCoordinate.Y ∧ v.TextureCoordinate.Y ≤ 1 := by
  have h : 0 < turnedInfo.TextureSize.X ∧ 0 < turnedInfo.TextureSize.Y ∧
      0 ≤ turnedInfo.Source.width ∧ 0 ≤ turnedInfo.Source.height ∧
      0 ≤ turnedInfo.Source.x ∧ 0 ≤ turnedInfo.Source.y ∧
      turnedInfo.Source.x + turnedInfo.Source.width ≤ turnedInfo.TextureSize.X ∧
      turnedInfo.Source.y + turnedInfo.Source.height ≤ turnedInfo.TextureSize.Y := by
    norm_num [turnedInfo, scenarioInfo]
  exact ⟨⟨rfl, rfl, by decide⟩, h, by decide,
    texture_coordinates_in_unit_square sincosStub (memoryOf turnedInfo 6) 1 0 0 1 1 rfl rfl
      (by decide) h.1 h.2.1 h.2.2.1 h.2.2.2.1 h.2.2.2.2.1 h.2.2.2.2.2.1 h.2.2.2.2.2.2.1
      h.2.2.2.2.2.2.2 (by decide)⟩

/-- C20. Flip table at `Orientation = 0`, relative to `SpriteEffects = 0`. The three calls
with `SpriteEffects = 0, 2, 3` on a buffer with room return. `SpriteEffects = 3` exchanges
the texture coordinates of vertices 0 and 3 and of vertices 1 and 2: texture X is kept and
texture Y is mirrored. `SpriteEffects = 2` exchanges them between vertices 0 and 2 and
between vertices 1 and 3: texture X and texture Y are both mirrored. -/
theorem flip_table (npLolSincosf : α → α × α) (mem : Memory α)
    (vertexPointer indexPointer : Nat) (vertexStartOffset : Int)
    (heff : mem.drawInfo.SpriteEffects = 0) (hori : mem.drawInfo.Orientation = 0)
    (hcap : vertexPointer + 4 ≤ mem.vertices.length) :
    ∃ mem0 mem2 mem3,
      UpdateBufferValuesFromElementInfo npLolSincosf mem vertexPointer indexPointer
        vertexStartOffset = some mem0 ∧
      UpdateBufferValuesFromElementInfo npLolSincosf
        { mem with drawInfo := { mem.drawInfo with SpriteEffects := 2 } }
        vertexPointer indexPointer vertexStartOffset = some mem2 ∧
      UpdateBufferValuesFromElementInfo npLolSincosf
        { mem with drawInfo := { mem.drawInfo with SpriteEffects := 3 } }
        vertexPointer indexPointer vertexStartOffset = some mem3 ∧
      (∀ j k : Nat, (j, k) ∈ [(0, 3), (3, 0), (1, 2), (2, 1)] →
        ∃ v w, mem3.vertices[vertexPointer + j]? = some v ∧
          mem0.vertices[vertexPointer + k]? = some w ∧
          v.TextureCoordinate = w.TextureCoordinate) ∧
      (∀ j k : Nat, (j, k) ∈ [(0, 2), (2, 0), (1, 3), (3, 1)] →
        ∃ v w, mem2.vertices[vertexPointer + j]? = some v ∧
          mem0.vertices[vertexPointer + k]? = some w ∧
          v.TextureCoordinate = w.TextureCoordinate) ∧
      (∀ (j : Nat) (cx cy : α), (j, cx, cy) ∈ [(0, 0, 0), (1, 1, 0), (2, 1, 1), (3, 0, 1)] →
        ∃ v0 v2 v3, mem0.vertices[vertexPointer + j]? = some v0 ∧
          mem2.vertices[vertexPointer + j]? = some v2 ∧
          mem3.vertices[vertexPointer + j]? = some v3 ∧
          v0.TextureCoordinate =
            ⟨(mem.drawInfo.Source.x + cx * mem.drawInfo.Source.width)
                * (1 / mem.drawInfo.TextureSize.X),
              (mem.drawInfo.Source.y + cy * mem.drawInfo.Source.height)
                * (1 / mem.drawInfo.TextureSize.Y)⟩ ∧
          v3.TextureCoordinate =
            ⟨(mem.drawInfo.Source.x + cx * mem.drawInfo.Source.width)
                * (1 / mem.drawInfo.TextureSize.X),
              (mem.drawInfo.Source.y + (1 - cy) * mem.drawInfo.Source.height)
                * (1 / mem.drawInfo.TextureSize.Y)⟩ ∧
          v2.TextureCoordinate =
            ⟨(mem.drawInfo.Source.x + (1 - cx) * mem.drawInfo.Source.width)
                * (1 / mem.drawInfo.TextureSize.X),
              (mem.drawInfo.Source.y + (1 - cy) * mem.drawInfo.Source.height)
                * (1 / mem.drawInfo.TextureSize.Y)⟩) := by
  have hi0 : ∀ j : Fin 4, cornerIndex 0 0 j = some j := by decide
  have hi2 : ∀ j : Fin 4, (cornerIndex 2 0 j).isSome = true := by decide
  have hi3 : ∀ j : Fin 4, (cornerIndex 3 0 j).isSome = true := by decide
  have hd0 : CornersDefined mem.drawInfo := fun j => by rw [heff, hori, hi0 j]; rfl
  have hd2 : CornersDefined ({ mem.drawInfo with SpriteEffects := 2 } : SpriteDrawInfo α) :=
    fun j => by
      show (cornerIndex 2 mem.drawInfo.Orientation j).isSome = true
      rw [hori]; exact hi2 j
  have hd3 : CornersDefined ({ mem.drawInfo with SpriteEffects := 3 } : SpriteDrawInfo α) :=
    fun j => by
      show (cornerIndex 3 mem.drawInfo.Orientation j).isSome = true
      rw [hori]; exact hi3 j
  obtain ⟨mem0, f0, hc0, hf0, hs0⟩ := update_writes_explicit npLolSincosf mem vertexPointer
    indexPointer vertexStartOffset hcap hd0
  obtain ⟨mem2, f2, hc2, hf2, hs2⟩ := update_writes_explicit npLolSincosf
    { mem with drawInfo := { mem.drawInfo with SpriteEffects := 2 } } vertexPointer
    indexPointer vertexStartOffset hcap hd2
  obtain ⟨mem3, f3, hc3, hf3, hs3⟩ := update_writes_explicit npLolSincosf
    { mem with drawInfo := { mem.drawInfo with SpriteEffects := 3 } } vertexPointer
    indexPointer vertexStartOffset hcap hd3
  have k0 : ∀ j i : Fin 4, cornerIndex 0 0 j = some i → f0 j = i := fun j i h =>
    Option.some.inj ((hf0 j).symm.trans (by rw [heff, hori]; exact h))
  have k2 : ∀ j i : Fin 4, cornerIndex 2 0 j = some i → f2 j = i := fun j i h =>
    Option.some.inj ((hf2 j).symm.trans (by
      show cornerIndex 2 mem.drawInfo.Orientation j = _
      rw [hori]; exact h))
  have k3 : ∀ j i : Fin 4, cornerIndex 3 0 j = some i → f3 j = i := fun j i h =>
    Option.some.inj ((hf3 j).symm.trans (by
      show cornerIndex 3 mem.drawInfo.Orientation j = _
      rw [hori]; exact h))
  have e0 : f0 0 = 0 ∧ f0 1 = 1 ∧ f0 2 = 2 ∧ f0 3 = 3 :=
    ⟨k0 0 0 (by decide), k0 1 1 (by decide), k0 2 2 (by decide), k0 3 3 (by decide)⟩
  have e2 : f2 0 = 2 ∧ f2 1 = 3 ∧ f2 2 = 0 ∧ f2 3 = 1 :=
    ⟨k2 0 2 (by decide), k2 1 3 (by decide), k2 2 0 (by decide), k2 3 1 (by decide)⟩
  have e3 : f3 0 = 3 ∧ f3 1 = 2 ∧ f3 2 = 1 ∧ f3 3 = 0 :=
    ⟨k3 0 3 (by decide), k3 1 2 (by decide), k3 2 1 (by decide), k3 3 0 (by decide)⟩
  refine ⟨mem0, mem2, mem3, hc0, hc2, hc3, ?_, ?_, ?_⟩
  · intro j k hjk
    simp only [List.mem_cons, Prod.mk.injEq, List.mem_singleton, List.not_mem_nil,
      or_false] at hjk
    rcases hjk with ⟨rfl, rfl⟩ | ⟨rfl, rfl⟩ | ⟨rfl, rfl⟩ | ⟨rfl, rfl⟩
    · exact ⟨_, _, hs3 0, hs0 3, by simp [e3, e0]⟩
    · exact ⟨_, _, hs3 3, hs0 0, by simp [e3, e0]⟩
    · exact ⟨_, _, hs3 1, hs0 2, by simp [e3, e0]⟩
    · exact ⟨_, _, hs3 2, hs0 1, by simp [e3, e0]⟩
  · intro j k hjk
    simp only [List.mem_cons, Prod.mk.injEq, List.mem_singleton, List.not_mem_nil,
      or_false] at hjk
    rcases hjk with ⟨rfl, rfl⟩ | ⟨rfl, rfl⟩ | ⟨rfl, rfl⟩ | ⟨rfl, rfl⟩
    · exact ⟨_, _, hs2 0, hs0 2, by simp [e2, e0]⟩
    · exact ⟨_, _, hs2 2, hs0 0, by simp [e2, e0]⟩
    · exact ⟨_, _, hs2 1, hs0 3, by simp [e2, e0]⟩
    · exact ⟨_, _, hs2 3, hs0 1, by simp [e2, e0]⟩
  · intro j cx cy hj
    simp only [List.mem_cons, Prod.mk.injEq, List.mem_singleton, List.not_mem_nil,
      or_false] at hj
    rcases hj with ⟨rfl, rfl, rfl⟩ | ⟨rfl, rfl, rfl⟩ | ⟨rfl, rfl, rfl⟩ | ⟨rfl, rfl, rfl⟩
    · exact ⟨_, _, _, hs0 0, hs2 0, hs3 0, by simp [e0, cornerOffsets],
        by simp [e3, cornerOffsets], by simp [e2, cornerOffsets]⟩
    · exact ⟨_, _, _, hs0 1, hs2 1, hs3 1, by simp [e0, cornerOffsets],
        by simp [e3, cornerOffsets], by simp [e2, cornerOffsets]⟩
    · exact ⟨_, _, _, hs0 2, hs2 2, hs3 2, by simp [e0, cornerOffsets],
        by simp [e3, cornerOffsets], by simp [e2, cornerOffsets]⟩
    · exact ⟨_, _, _, hs0 3, hs2 3, hs3 3, by simp [e0, cornerOffsets],
        by simp [e3, cornerOffsets], by simp [e2, cornerOffsets]⟩

/-- C20 at the scenario: `SpriteEffects = 3` gives (0,1/2), (1/2,1/2), (1/2,0), (0,0) and
`SpriteEffects = 2` gives (1/2,1/2), (0,1/2), (0,0), (1/2,0). -/
theorem flip_table_witness :
    scenarioInfo.SpriteEffects = 0 ∧ scenarioInfo.Orientation = 0 ∧
    0 + 4 ≤ (memoryOf scenarioInfo 4).vertices.length ∧
    (∃ mem0 mem2 mem3,
      UpdateBufferValuesFromElementInfo sincosStub (memoryOf scenarioInfo 4) 0 0 0
        = some mem0 ∧
      UpdateBufferValuesFromElementInfo sincosStub
        (memoryOf { scenarioInfo with SpriteEffects := 2 } 4) 0 0 0 = some mem2 ∧
      UpdateBufferValuesFromElementInfo sincosStub
        (memoryOf { scenarioInfo with SpriteEffects := 3 } 4) 0 0 0 = some mem3 ∧
      (∀ j k : Nat, (j, k) ∈ [(0, 3), (3, 0), (1, 2), (2, 1)] →
        ∃ v w, mem3.vertices[0 + j]? = some v ∧ mem0.vertices[0 + k]? = some w ∧
          v.TextureCoordinate = w.TextureCoordinate) ∧
      (∀ j k : Nat, (j, k) ∈ [(0, 2), (2, 0), (1, 3), (3, 1)] →
        ∃ v w, mem2.vertices[0 + j]? = some v ∧ mem0.vertices[0 + k]? = some w ∧
          v.TextureCoordinate = w.TextureCoordinate) ∧
      (∀ (j : Nat) (cx cy : ℚ), (j, cx, cy) ∈ [(0, 0, 0), (1, 1, 0), (2, 1, 1), (3, 0, 1)] →
        ∃ v0 v2 v3, mem0.vertices[0 + j]? = some v0 ∧
          mem2.vertices[0 + j]? = some v2 ∧ mem3.vertices[0 + j]? = some v3 ∧
          v0.TextureCoordinate = ⟨(0 + cx * 50) * (1 / 100), (0 + cy * 50) * (1 / 100)⟩ ∧
          v3.TextureCoordinate
            = ⟨(0 + cx * 50) * (1 / 100), (0 + (1 - cy) * 50) * (1 / 100)⟩ ∧
          v2.TextureCoordinate
            = ⟨(0 + (1 - cx) * 50) * (1 / 100), (0 + (1 - cy) * 50) * (1 / 100)⟩)) ∧
    (UpdateBufferValuesFromElementInfo sincosStub
        (memoryOf { scenarioInfo with SpriteEffects := 3 } 4) 0 0 0).map
        (fun m => m.vertices.map (fun v => (v.TextureCoordinate.X, v.TextureCoordinate.Y)))
      = some [(0, 1 / 2), (1 / 2, 1 / 2), (1 / 2, 0), (0, 0)] := by
  refine ⟨rfl, rfl, by decide,
    flip_table sincosStub (memoryOf scenarioInfo 4) 0 0 0 rfl rfl (by decide), ?_⟩
  have g0 : cornerIndex 3 0 0 = some 3 := by decide
  have g1 : cornerIndex 3 0 1 = some 2 := by decide
  have g2 : cornerIndex 3 0 2 = some 1 := by decide
  have g3 : cornerIndex 3 0 3 = some 0 := by decide
  simp [UpdateBufferValuesFromElementInfo, forLoop, loopBody, storeVertex, memoryOf,
    scenarioInfo, rotationBasis, normalizedOrigin, cornerOffsets, epsilon, g0, g1, g2, g3]
  norm_num

end Claims

end SpriteBatchNative
